import Mathlib

/-!
# Line program uniform values (`src/mbgl/programs/line_program.cpp`)

A shallow embedding of `makeValues` and of the three `uniformValues` builders
(`LineProgram`, `LineSDFProgram`, `LinePatternProgram`).

Numbers.  The C++ code computes with `float`/`double`.  Here a finite number is an
element of a linearly ordered field `F` (take `F := ℚ` to run the definitions; every
finite float is a rational), and `+`, `-`, `*`, unary minus and `min` are exact.
Division is the one operation of the file that can leave the finite numbers in exact
arithmetic: `fdiv a b` is `none` when `b = 0` (IEEE gives an infinity or a NaN there) and
`some (a / b)` otherwise.  A value computed from a division is an `Option F`; `none` stays
`none` through the additions, subtractions and halvings applied afterwards, as an infinity
or NaN does.

Rounding and overflow.  `makeValues` and the builders are the exact evaluation: they say
which expression each field carries.  For `u_extra`, whose value depends on rounding and on
overflow, `makeValues_u_extra_float` is the evaluation of the same lines with every
conversion to `float` written out, and `binary32` is that conversion over `ℚ`.

Library and missing code.  `std::sqrt`, `std::cos`, `std::sin`, `std::tan` are
parameters (`CMath`).  The methods of `RenderTile` and the accessors of
`TransformState` are fields of the structures of the same name.  Statements about the
real square root and the real trigonometric functions take `F := ℝ` and the library
`Real.sqrt`, `Real.cos`, `Real.sin`, `Real.tan`.
-/

namespace mbgl

/-! ## Numbers -/

/-- Division of two finite numbers: `none` is the non-finite result of dividing by zero. -/
def fdiv {F : Type} [LinearOrderedField F] (a b : F) : Option F :=
  if b = 0 then none else some (a / b)

/-- The functions of `<cmath>` the file calls (and `std::sin`, which `matrix::rotate` calls). -/
structure CMath (F : Type) where
  sqrt : F → F
  cos : F → F
  sin : F → F
  tan : F → F

/-! ## Data -/

/-- A `std::array<float, 2>` whose components may come from a division. -/
abbrev Vec2 (F : Type) := Option F × Option F

/-- The type `mat2` (`std::array<double, 4>`, column-major). -/
structure mat2 (F : Type) where
  a0 : F
  a1 : F
  a2 : F
  a3 : F
deriving DecidableEq, Repr

/-- The type `mat4` (`std::array<double, 16>`). -/
abbrev mat4 (F : Type) := Fin 16 → F

/-- The type `Color`: red, green, blue, alpha. -/
structure Color (F : Type) where
  r : F
  g : F
  b : F
  a : F
deriving DecidableEq, Repr

/-- The enum `style::TranslateAnchorType`. -/
inductive TranslateAnchorType where
  | Map
  | Viewport
deriving DecidableEq, Repr

/-- The template `Faded<T>`: two values and the scales and mix factor of their cross-fade. -/
structure Faded (F : Type) (T : Type) where
  from_ : T
  to_ : T
  fromScale : F
  toScale : F
  t : F

/-- The value of `LinePaintProperties::Evaluated`: field `X` is `properties.get<X>()`. -/
structure Evaluated (F : Type) where
  LineOpacity : F
  LineColor : Color F
  LineTranslate : F × F
  LineTranslateAnchor : TranslateAnchorType
  LineWidth : F
  LineGapWidth : F
  LineBlur : F
  LineOffset : F
  LineDasharray : Faded F (List F)
  LinePattern : Faded F String

/-- The type `Size`: the viewport in pixels (`uint32_t` components). -/
structure Size where
  width : Nat
  height : Nat
deriving DecidableEq, Repr

/-- The accessors of `TransformState` that the file reads: field `getX` is `state.getX()`. -/
structure TransformState (F : Type) where
  getPitch : F
  getAngle : F
  getAltitude : F
  getSize : Size
  getZoom : F
  getIntegerZoom : Int

/-- The methods of `RenderTile` that the file calls: `tile.translatedMatrix` and
`tile.id.pixelsToTileUnits`. -/
structure RenderTile (F : Type) where
  translatedMatrix : F × F → TranslateAnchorType → TransformState F → mat4 F
  pixelsToTileUnits : F → F → F

/-- The type `LinePatternPos`: the place of a dash pattern in the line atlas. -/
structure LinePatternPos (F : Type) where
  width : F
  height : F
  y : F

/-- The type `SpriteAtlasPosition`: the place of an image in the sprite atlas. -/
structure SpriteAtlasPosition (F : Type) where
  size : F × F
  tl : F × F
  br : F × F

/-! ## `mat2` operations -/

namespace matrix

/-- Modelled from the spec: `matrix::identity` of `mbgl/util/mat2.cpp`, which is not among
the sources ("start from identity"). -/
def identity {F : Type} [LinearOrderedField F] : mat2 F :=
  { a0 := 1, a1 := 0, a2 := 0, a3 := 1 }

/-- Modelled from the spec: `matrix::scale` of `mbgl/util/mat2.cpp`, which is not among the
sources ("scale the Y axis by cos(pitch)"): the X column is scaled by `v0`, the Y column by
`v1`. -/
def scale {F : Type} [LinearOrderedField F] (a : mat2 F) (v0 v1 : F) : mat2 F :=
  { a0 := a.a0 * v0, a1 := a.a1 * v0, a2 := a.a2 * v1, a3 := a.a3 * v1 }

/-- Modelled from the spec: `matrix::rotate` of `mbgl/util/mat2.cpp`, which is not among the
sources ("then rotate by the bearing angle"): `a` times the rotation by `rad`. -/
def rotate {F : Type} [LinearOrderedField F] (m : CMath F) (a : mat2 F) (rad : F) : mat2 F :=
  let s := m.sin rad
  let c := m.cos rad
  { a0 := a.a0 * c + a.a2 * s
    a1 := a.a1 * c + a.a3 * s
    a2 := a.a0 * -s + a.a2 * c
    a3 := a.a1 * -s + a.a3 * c }

end matrix

/-! ## `makeValues` -/

/-- The aggregate `Values` that `makeValues` builds: the ten uniforms common to the three
programs, in the order of the source, followed by the arguments forwarded from the caller. -/
structure Values (F : Type) (Args : Type) where
  u_matrix : mat4 F
  u_opacity : F
  u_linewidth : F
  u_gapwidth : F
  u_blur : Option F
  u_offset : F
  u_antialiasing : Option F
  u_antialiasingmatrix : mat2 F
  u_ratio : Option F
  u_extra : Option F
  args : Args

/-- The function template `makeValues` (lines 15-52).  `std::pow(v, 2.0f)` is the square
`v ^ 2`; the viewport height is converted from its unsigned integer type.  Every field is the
exact value of its expression; for `u_extra` the evaluation in `float` arithmetic, with its
roundings and its overflow, is `makeValues_u_extra_float`. -/
def makeValues {F : Type} [LinearOrderedField F] {Args : Type} (m : CMath F)
    (properties : Evaluated F) (pixelRatio : F) (tile : RenderTile F)
    (state : TransformState F) (args : Args) : Values F Args :=
  let antialiasing : Option F := fdiv 1 pixelRatio
  let antialiasingMatrix : mat2 F :=
    matrix.rotate m (matrix.scale matrix.identity 1 (m.cos state.getPitch)) state.getAngle
  let topedgelength : F :=
    m.sqrt ((state.getSize.height : F) ^ 2 / 4 * (1 + state.getAltitude ^ 2))
  let x : F := (state.getSize.height : F) / 2 * m.tan state.getPitch
  { u_matrix := tile.translatedMatrix properties.LineTranslate properties.LineTranslateAnchor state
    u_opacity := properties.LineOpacity
    u_linewidth := properties.LineWidth / 2
    u_gapwidth := properties.LineGapWidth / 2
    u_blur := antialiasing.map (fun a => properties.LineBlur + a)
    u_offset := -properties.LineOffset
    u_antialiasing := antialiasing.map (fun a => a / 2)
    u_antialiasingmatrix := antialiasingMatrix
    u_ratio := fdiv 1 (tile.pixelsToTileUnits 1 state.getZoom)
    u_extra := (fdiv (topedgelength + x) topedgelength).map (fun q => q - 1)
    args := args }

/-! ## The three builders -/

/-- The uniforms `LineProgram` adds to the common ones. -/
structure LineArgs (F : Type) where
  u_color : Color F

/-- The uniforms `LineSDFProgram` adds to the common ones. -/
structure LineSDFArgs (F : Type) where
  u_color : Color F
  u_patternscale_a : Vec2 F
  u_patternscale_b : Vec2 F
  u_tex_y_a : F
  u_tex_y_b : F
  u_mix : F
  u_sdfgamma : Option F
  u_image : Nat

/-- The uniforms `LinePatternProgram` adds to the common ones. -/
structure LinePatternArgs (F : Type) where
  u_pattern_tl_a : F × F
  u_pattern_br_a : F × F
  u_pattern_tl_b : F × F
  u_pattern_br_b : F × F
  u_pattern_size_a : F × F
  u_pattern_size_b : F × F
  u_fade : F
  u_image : Nat

/-- The function `LineProgram::uniformValues` (lines 54-66). -/
def LineProgram.uniformValues {F : Type} [LinearOrderedField F] (m : CMath F)
    (properties : Evaluated F) (pixelRatio : F) (tile : RenderTile F)
    (state : TransformState F) : Values F (LineArgs F) :=
  makeValues m properties pixelRatio tile state
    { u_color := properties.LineColor }

/-- The function `LineSDFProgram::uniformValues` (lines 68-104). -/
def LineSDFProgram.uniformValues {F : Type} [LinearOrderedField F] (m : CMath F)
    (properties : Evaluated F) (pixelRatio : F) (tile : RenderTile F)
    (state : TransformState F) (posA posB : LinePatternPos F)
    (dashLineWidth atlasWidth : F) : Values F (LineSDFArgs F) :=
  let widthA : F := posA.width * properties.LineDasharray.fromScale * dashLineWidth
  let widthB : F := posB.width * properties.LineDasharray.toScale * dashLineWidth
  let scaleA : Vec2 F :=
    (fdiv 1 (tile.pixelsToTileUnits widthA (state.getIntegerZoom : F)), some (-posA.height / 2))
  let scaleB : Vec2 F :=
    (fdiv 1 (tile.pixelsToTileUnits widthB (state.getIntegerZoom : F)), some (-posB.height / 2))
  makeValues m properties pixelRatio tile state
    { u_color := properties.LineColor
      u_patternscale_a := scaleA
      u_patternscale_b := scaleB
      u_tex_y_a := posA.y
      u_tex_y_b := posB.y
      u_mix := properties.LineDasharray.t
      u_sdfgamma := (fdiv atlasWidth (min widthA widthB * 256 * pixelRatio)).map (fun g => g / 2)
      u_image := 0 }

/-- The function `LinePatternProgram::uniformValues` (lines 106-137). -/
def LinePatternProgram.uniformValues {F : Type} [LinearOrderedField F] (m : CMath F)
    (properties : Evaluated F) (pixelRatio : F) (tile : RenderTile F)
    (state : TransformState F) (posA posB : SpriteAtlasPosition F) :
    Values F (LinePatternArgs F) :=
  let sizeA : F × F :=
    (tile.pixelsToTileUnits (posA.size.1 * properties.LinePattern.fromScale)
      (state.getIntegerZoom : F), posA.size.2)
  let sizeB : F × F :=
    (tile.pixelsToTileUnits (posB.size.1 * properties.LinePattern.toScale)
      (state.getIntegerZoom : F), posB.size.2)
  makeValues m properties pixelRatio tile state
    { u_pattern_tl_a := posA.tl
      u_pattern_br_a := posA.br
      u_pattern_tl_b := posB.tl
      u_pattern_br_b := posB.br
      u_pattern_size_a := sizeA
      u_pattern_size_b := sizeB
      u_fade := properties.LinePattern.t
      u_image := 0 }

/-! ## The aggregates as ordered lists

`makeValues` builds its aggregate by position: the ten initialisers of lines 36-49, then the
forwarded pack `args...` in the order the builder wrote it.  The lists below are those
initialiser lists, each entry the uniform's name with the value handed to its `Value`. -/

/-- The payload of a `uniforms::u_x::Value`. -/
inductive UniformValue (F : Type) where
  | scalar : Option F → UniformValue F
  | vector2 : Option F × Option F → UniformValue F
  | matrix2 : mat2 F → UniformValue F
  | matrix4 : mat4 F → UniformValue F
  | color : Color F → UniformValue F
  | integer : Nat → UniformValue F

/-- The pack forwarded by `LineProgram::uniformValues` (line 64). -/
def LineArgs.uniforms {F : Type} (a : LineArgs F) : List (String × UniformValue F) :=
  [("u_color", UniformValue.color a.u_color)]

/-- The pack forwarded by `LineSDFProgram::uniformValues` (lines 95-102). -/
def LineSDFArgs.uniforms {F : Type} (a : LineSDFArgs F) : List (String × UniformValue F) :=
  [("u_color", UniformValue.color a.u_color),
   ("u_patternscale_a", UniformValue.vector2 a.u_patternscale_a),
   ("u_patternscale_b", UniformValue.vector2 a.u_patternscale_b),
   ("u_tex_y_a", UniformValue.scalar (some a.u_tex_y_a)),
   ("u_tex_y_b", UniformValue.scalar (some a.u_tex_y_b)),
   ("u_mix", UniformValue.scalar (some a.u_mix)),
   ("u_sdfgamma", UniformValue.scalar a.u_sdfgamma),
   ("u_image", UniformValue.integer a.u_image)]

/-- The pack forwarded by `LinePatternProgram::uniformValues` (lines 128-135). -/
def LinePatternArgs.uniforms {F : Type} (a : LinePatternArgs F) :
    List (String × UniformValue F) :=
  [("u_pattern_tl_a", UniformValue.vector2 (some a.u_pattern_tl_a.1, some a.u_pattern_tl_a.2)),
   ("u_pattern_br_a", UniformValue.vector2 (some a.u_pattern_br_a.1, some a.u_pattern_br_a.2)),
   ("u_pattern_tl_b", UniformValue.vector2 (some a.u_pattern_tl_b.1, some a.u_pattern_tl_b.2)),
   ("u_pattern_br_b", UniformValue.vector2 (some a.u_pattern_br_b.1, some a.u_pattern_br_b.2)),
   ("u_pattern_size_a",
      UniformValue.vector2 (some a.u_pattern_size_a.1, some a.u_pattern_size_a.2)),
   ("u_pattern_size_b",
      UniformValue.vector2 (some a.u_pattern_size_b.1, some a.u_pattern_size_b.2)),
   ("u_fade", UniformValue.scalar (some a.u_fade)),
   ("u_image", UniformValue.integer a.u_image)]

/-- The ten initialisers of `makeValues` (lines 36-49), in order. -/
def Values.baseUniforms {F : Type} {Args : Type} (v : Values F Args) :
    List (String × UniformValue F) :=
  [("u_matrix", UniformValue.matrix4 v.u_matrix),
   ("u_opacity", UniformValue.scalar (some v.u_opacity)),
   ("u_linewidth", UniformValue.scalar (some v.u_linewidth)),
   ("u_gapwidth", UniformValue.scalar (some v.u_gapwidth)),
   ("u_blur", UniformValue.scalar v.u_blur),
   ("u_offset", UniformValue.scalar (some v.u_offset)),
   ("u_antialiasing", UniformValue.scalar v.u_antialiasing),
   ("u_antialiasingmatrix", UniformValue.matrix2 v.u_antialiasingmatrix),
   ("u_ratio", UniformValue.scalar v.u_ratio),
   ("u_extra", UniformValue.scalar v.u_extra)]

/-- The whole initialiser list of `makeValues` (lines 35-51): the ten common uniforms, then
the forwarded pack written out by `pack`. -/
def Values.uniforms {F : Type} {Args : Type} (pack : Args → List (String × UniformValue F))
    (v : Values F Args) : List (String × UniformValue F) :=
  v.baseUniforms ++ pack v.args

/-- The determinant of a column-major `mat2`. -/
def mat2.det {F : Type} [LinearOrderedField F] (a : mat2 F) : F :=
  a.a0 * a.a3 - a.a2 * a.a1

/-! ## The perspective factor in `float` arithmetic

The exact arithmetic of `makeValues` suffices for the statements on which expression a field
carries.  The value of `u_extra` is more delicate: `topedgelength` and `x` are stored in
`float` variables, where a large value overflows to an infinity, and
`(topedgelength + x) / topedgelength - 1.0f` rounds after each of its three operations.  The
definition below makes these conversions explicit. -/

/-- Lines 32, 33 and 49 of `makeValues` with every conversion to `float` written out.  `fl`
is the conversion to `float`: the nearest `float`, or `none` when the value overflows to an
infinity.  Line 32 stores the square root in the `float` variable `topedgelength`; line 33
converts the viewport height to `float` for `height / 2.0f` and stores the product with the
tangent in the `float` variable `x`; line 49 is three `float` operations.  The double
precision arithmetic inside the initialisers of lines 32 and 33 is exact.  As in `makeValues`,
`none` is a non-finite value and stays non-finite through the operations that follow. -/
def makeValues_u_extra_float {F : Type} [LinearOrderedField F] (fl : F → Option F)
    (m : CMath F) (state : TransformState F) : Option F :=
  (fl (m.sqrt ((state.getSize.height : F) ^ 2 / 4 * (1 + state.getAltitude ^ 2)))).bind
    fun topedgelength =>
  (fl (state.getSize.height : F)).bind fun height =>
  (fl (height / 2)).bind fun half =>
  (fl (half * m.tan state.getPitch)).bind fun x =>
  (fl (topedgelength + x)).bind fun sum =>
  (fdiv sum topedgelength).bind fun quotient =>
  (fl quotient).bind fun rounded =>
  fl (rounded - 1)

/-! ## A concrete library and concrete inputs over `ℚ` -/

/-- A rational `<cmath>`: the square root rounded down to a multiple of `1 / den`, and the
Taylor polynomials of degree five of cosine, sine and tangent. -/
def sampleCMath : CMath ℚ where
  sqrt := fun q => if q ≤ 0 then 0 else (Nat.sqrt (q.num.toNat * q.den) : ℚ) / (q.den : ℚ)
  cos := fun x => 1 - x ^ 2 / 2 + x ^ 4 / 24
  sin := fun x => x - x ^ 3 / 6 + x ^ 5 / 120
  tan := fun x => x + x ^ 3 / 3 + 2 * x ^ 5 / 15

/-- Evaluated paint properties of a two pixel wide line. -/
def sampleProperties : Evaluated ℚ where
  LineOpacity := 1
  LineColor := { r := 1, g := 0, b := 0, a := 1 }
  LineTranslate := (0, 0)
  LineTranslateAnchor := TranslateAnchorType.Map
  LineWidth := 2
  LineGapWidth := 0
  LineBlur := 0
  LineOffset := 1
  LineDasharray := { from_ := [1, 2], to_ := [1, 2], fromScale := 1, toScale := 1, t := 1 / 2 }
  LinePattern := { from_ := "a", to_ := "a", fromScale := 1, toScale := 2, t := 1 / 2 }

/-- A tile whose matrix is constant and for which one pixel is sixteen tile units. -/
def sampleTile : RenderTile ℚ where
  translatedMatrix := fun _ _ _ => fun _ => 0
  pixelsToTileUnits := fun v _ => v * 16

/-- A tile for which pixels and tile units coincide. -/
def unitTile : RenderTile ℚ where
  translatedMatrix := fun _ _ _ => fun _ => 0
  pixelsToTileUnits := fun v _ => v

/-- A transform state with the given pitch, bearing and viewport height. -/
def sampleState (pitch angle : ℚ) (height : Nat) : TransformState ℚ where
  getPitch := pitch
  getAngle := angle
  getAltitude := 3 / 2
  getSize := { width := 800, height := height }
  getZoom := 25 / 2
  getIntegerZoom := 12

/-- A dash pattern of the given width in the line atlas. -/
def samplePos (width : ℚ) : LinePatternPos ℚ where
  width := width
  height := 16
  y := 8

/-- An image of the given size in the sprite atlas. -/
def sampleSprite (w h : ℚ) : SpriteAtlasPosition ℚ where
  size := (w, h)
  tl := (0, 0)
  br := (1 / 4, 1 / 4)

/-! ## Concrete inputs over any field -/

/-- Evaluated paint properties of a two pixel wide opaque line, over any field. -/
def plainProperties {F : Type} [LinearOrderedField F] : Evaluated F where
  LineOpacity := 1
  LineColor := { r := 0, g := 0, b := 1, a := 1 }
  LineTranslate := (0, 0)
  LineTranslateAnchor := TranslateAnchorType.Viewport
  LineWidth := 2
  LineGapWidth := 0
  LineBlur := 0
  LineOffset := 0
  LineDasharray := { from_ := [], to_ := [], fromScale := 1, toScale := 2, t := 0 }
  LinePattern := { from_ := "", to_ := "", fromScale := 1, toScale := 2, t := 0 }

/-- A tile whose conversion from pixels to tile units grows with the zoom, over any field. -/
def zoomTile {F : Type} [LinearOrderedField F] : RenderTile F where
  translatedMatrix := fun _ _ _ => fun _ => 0
  pixelsToTileUnits := fun v z => v * (z + 1)

/-- A transform state with the given pitch, bearing, altitude and viewport height, at
continuous zoom `5/2` and integer zoom `2`, over any field. -/
def stateOf {F : Type} [LinearOrderedField F] (pitch angle altitude : F) (height : Nat) :
    TransformState F where
  getPitch := pitch
  getAngle := angle
  getAltitude := altitude
  getSize := { width := 800, height := height }
  getZoom := 5 / 2
  getIntegerZoom := 2

/-! ## The `float` format over `ℚ` -/

/-- The integer nearest to a rational, the even one of the two when it lies half way. -/
def roundHalfEven (r : ℚ) : ℤ :=
  if r - ⌊r⌋ < 1 / 2 then ⌊r⌋
  else if 1 / 2 < r - ⌊r⌋ then ⌊r⌋ + 1
  else if ⌊r⌋ % 2 = 0 then ⌊r⌋ else ⌊r⌋ + 1

/-- The exponent of the last place of a binary32 number near `q`: `23` below the exponent
of `q` (24 bit significand), and `-149` in the subnormal range. -/
def ulpExp (q : ℚ) : ℤ := max (Int.log 2 |q|) (-126) - 23

/-- The multiple of the unit in the last place nearest to `q`, ties to even. -/
def roundToUlp (q : ℚ) : ℚ := (roundHalfEven (q / 2 ^ ulpExp q) : ℚ) * 2 ^ ulpExp q

/-- The conversion of a rational to IEEE 754 binary32 (`float`), round to nearest, ties to
even: `none` when the rounded value reaches `2 ^ 128` and the result is an infinity. -/
def binary32 (q : ℚ) : Option ℚ :=
  if |roundToUlp q| < 2 ^ 128 then some (roundToUlp q) else none

/-- A rational with a significand of at most 24 bits and an exponent of at least `-149`. -/
def IsFloat (f : ℚ) : Prop := ∃ n k : ℤ, |n| < 2 ^ 24 ∧ -149 ≤ k ∧ f = (n : ℚ) * 2 ^ k

end mbgl

namespace mbgl

/-! ## Lemmas on `fdiv` -/

lemma fdiv_ne_zero {F : Type} [LinearOrderedField F] (a : F) {b : F} (h : b ≠ 0) :
    fdiv a b = some (a / b) := by
  simp [fdiv, h]

lemma fdiv_zero {F : Type} [LinearOrderedField F] (a : F) : fdiv a 0 = none := by
  simp [fdiv]

lemma fdiv_eq_none_iff {F : Type} [LinearOrderedField F] (a b : F) :
    fdiv a b = none ↔ b = 0 := by
  unfold fdiv
  split <;> simp_all

lemma sampleCMath_sqrt_ne_zero (y : ℚ) (hy : 0 < y) : sampleCMath.sqrt y ≠ 0 := by
  have hnum : 0 < y.num := Rat.num_pos.mpr hy
  have hden : 0 < y.den := y.den_pos
  have hprod : 0 < y.num.toNat * y.den := by
    have : 0 < y.num.toNat := by omega
    positivity
  have hs : 0 < Nat.sqrt (y.num.toNat * y.den) := Nat.sqrt_pos.mpr hprod
  have hq : (0 : ℚ) < (Nat.sqrt (y.num.toNat * y.den) : ℚ) / (y.den : ℚ) := by
    have h1 : (0 : ℚ) < (Nat.sqrt (y.num.toNat * y.den) : ℚ) := by exact_mod_cast hs
    have h2 : (0 : ℚ) < (y.den : ℚ) := by exact_mod_cast hden
    exact div_pos h1 h2
  simp only [sampleCMath, not_le.mpr hy, if_false]
  exact ne_of_gt hq

/-! ## Lemmas on the `float` format -/

lemma floor_le_roundHalfEven (r : ℚ) : ⌊r⌋ ≤ roundHalfEven r := by
  unfold roundHalfEven
  split_ifs <;> omega

lemma roundHalfEven_le_floor_add_one (r : ℚ) : roundHalfEven r ≤ ⌊r⌋ + 1 := by
  unfold roundHalfEven
  split_ifs <;> omega

lemma roundHalfEven_intCast (z : ℤ) : roundHalfEven (z : ℚ) = z := by
  unfold roundHalfEven
  simp

lemma roundHalfEven_le_of_le {r : ℚ} {z : ℤ} (h : r ≤ z) : roundHalfEven r ≤ z := by
  have hfl : ⌊r⌋ ≤ z := by
    have h1 : (⌊r⌋ : ℚ) ≤ z := (Int.floor_le r).trans h
    exact_mod_cast h1
  rcases lt_or_eq_of_le hfl with hlt | heq
  · have := roundHalfEven_le_floor_add_one r
    omega
  · have hr : r = z := by
      have h1 : (⌊r⌋ : ℚ) ≤ r := Int.floor_le r
      rw [heq] at h1
      exact le_antisymm h h1
    rw [hr, roundHalfEven_intCast]

lemma le_roundHalfEven_of_le {r : ℚ} {z : ℤ} (h : (z : ℚ) ≤ r) : z ≤ roundHalfEven r :=
  (Int.le_floor.mpr h).trans (floor_le_roundHalfEven r)

lemma roundHalfEven_eq_of_abs_lt {r : ℚ} {z : ℤ} (h : |r - z| < 1 / 2) : roundHalfEven r = z := by
  rw [abs_lt] at h
  obtain ⟨h1, h2⟩ := h
  rcases le_or_lt (z : ℚ) r with hle | hlt
  · have hfl : ⌊r⌋ = z := Int.floor_eq_iff.mpr ⟨hle, by linarith⟩
    unfold roundHalfEven
    rw [hfl, if_pos (by linarith)]
  · have hfl : ⌊r⌋ = z - 1 := Int.floor_eq_iff.mpr ⟨by push_cast; linarith, by push_cast; linarith⟩
    unfold roundHalfEven
    rw [hfl, if_neg (by push_cast; linarith), if_pos (by push_cast; linarith)]
    omega

lemma two_zpow_pos (k : ℤ) : (0 : ℚ) < 2 ^ k := zpow_pos (by norm_num) k

lemma ulpExp_ge (q : ℚ) : -149 ≤ ulpExp q := by
  unfold ulpExp
  have := le_max_right (Int.log 2 |q|) (-126)
  omega

lemma log_le_ulpExp (q : ℚ) : Int.log 2 |q| ≤ ulpExp q + 23 := by
  unfold ulpExp
  have := le_max_left (Int.log 2 |q|) (-126)
  omega

lemma abs_lt_two_zpow_ulpExp (q : ℚ) : |q| < 2 ^ (ulpExp q + 24) := by
  have h1 : |q| < ((2 : ℕ) : ℚ) ^ (Int.log 2 |q| + 1) := Int.lt_zpow_succ_log_self (by norm_num) _
  have h2 : ((2 : ℕ) : ℚ) ^ (Int.log 2 |q| + 1) ≤ ((2 : ℕ) : ℚ) ^ (ulpExp q + 24) :=
    zpow_le_zpow_right₀ (by norm_num) (by have := log_le_ulpExp q; omega)
  have h3 := lt_of_lt_of_le h1 h2
  simpa using h3

lemma two_zpow_ulpExp_le_abs {q : ℚ} (hq : q ≠ 0) (hu : ulpExp q ≠ -149) :
    2 ^ (ulpExp q + 23) ≤ |q| := by
  have hlog : ulpExp q + 23 = Int.log 2 |q| := by
    unfold ulpExp at hu ⊢
    rcases max_cases (Int.log 2 |q|) (-126) with ⟨h1, _⟩ | ⟨h1, _⟩
    · omega
    · rw [h1] at hu
      omega
  rw [hlog]
  have := Int.zpow_log_le_self (R := ℚ) (b := 2) (r := |q|) (by norm_num) (abs_pos.mpr hq)
  simpa using this

lemma ulpExp_eq {q : ℚ} {e : ℤ} (he : -126 ≤ e) (h1 : 2 ^ e ≤ |q|) (h2 : |q| < 2 ^ (e + 1)) :
    ulpExp q = e - 23 := by
  have hpos : 0 < |q| := lt_of_lt_of_le (two_zpow_pos e) h1
  have hle : e ≤ Int.log 2 |q| :=
    (Int.zpow_le_iff_le_log (R := ℚ) (b := 2) (by norm_num) hpos).mp (by simpa using h1)
  have hlt : Int.log 2 |q| < e + 1 :=
    (Int.lt_zpow_iff_log_lt (R := ℚ) (b := 2) (by norm_num) hpos).mp (by simpa using h2)
  unfold ulpExp
  rw [max_eq_left (by omega)]
  omega

lemma roundToUlp_zero : roundToUlp 0 = 0 := by
  unfold roundToUlp
  rw [zero_div]
  have := roundHalfEven_intCast 0
  simp only [Int.cast_zero] at this
  rw [this]
  simp

lemma isFloat_grid_or_small {x f : ℚ} (hx : x ≠ 0) (hf : IsFloat f) :
    (∃ z : ℤ, f = (z : ℚ) * 2 ^ ulpExp x)
      ∨ (|f| < 2 ^ (ulpExp x + 23) ∧ 2 ^ (ulpExp x + 23) ≤ |x|) := by
  obtain ⟨n, k, hn, hk, rfl⟩ := hf
  by_cases hku : ulpExp x ≤ k
  · left
    refine ⟨n * 2 ^ (k - ulpExp x).toNat, ?_⟩
    have hk2 : k = (k - ulpExp x).toNat + ulpExp x := by
      have : ((k - ulpExp x).toNat : ℤ) = k - ulpExp x := Int.toNat_of_nonneg (by omega)
      omega
    have h2 : (2 : ℚ) ^ k = 2 ^ ((k - ulpExp x).toNat) * 2 ^ ulpExp x := by
      conv_lhs => rw [hk2]
      rw [zpow_add₀ (by norm_num), zpow_natCast]
    rw [h2]
    push_cast
    ring
  · right
    push_neg at hku
    constructor
    · have hn' : |(n : ℚ)| < 2 ^ 24 := by exact_mod_cast hn
      have h1 : |(n : ℚ) * 2 ^ k| = |(n : ℚ)| * 2 ^ k := by
        rw [abs_mul, abs_of_pos (two_zpow_pos k)]
      rw [h1]
      have h2 : |(n : ℚ)| * 2 ^ k < 2 ^ 24 * 2 ^ k :=
        mul_lt_mul_of_pos_right hn' (two_zpow_pos k)
      have h3 : (2 : ℚ) ^ 24 * 2 ^ k = 2 ^ (k + 24) := by
        rw [zpow_add₀ (by norm_num)]
        norm_num
        ring
      have h4 : (2 : ℚ) ^ (k + 24) ≤ 2 ^ (ulpExp x + 23) :=
        zpow_le_zpow_right₀ (by norm_num) (by omega)
      linarith
    · exact two_zpow_ulpExp_le_abs hx (by omega)

lemma roundToUlp_le_of_le_isFloat {x f : ℚ} (hf : IsFloat f) (h : x ≤ f) : roundToUlp x ≤ f := by
  rcases eq_or_ne x 0 with rfl | hx
  · rw [roundToUlp_zero]
    exact h
  have hu := two_zpow_pos (ulpExp x)
  rcases isFloat_grid_or_small hx hf with ⟨z, hz⟩ | ⟨h1, h2⟩
  · have hq : x / 2 ^ ulpExp x ≤ (z : ℚ) := by
      rw [div_le_iff₀ hu, ← hz]
      exact h
    have hr : roundHalfEven (x / 2 ^ ulpExp x) ≤ z := roundHalfEven_le_of_le hq
    have hr' : (roundHalfEven (x / 2 ^ ulpExp x) : ℚ) ≤ (z : ℚ) := by exact_mod_cast hr
    unfold roundToUlp
    rw [hz]
    exact mul_le_mul_of_nonneg_right hr' hu.le
  · have hneg : x < 0 := by
      by_contra hnn
      push_neg at hnn
      rw [abs_of_nonneg hnn] at h2
      have := le_abs_self f
      linarith
    rw [abs_of_neg hneg] at h2
    have hpow : (2 : ℚ) ^ (ulpExp x + 23) = 2 ^ 23 * 2 ^ ulpExp x := by
      rw [zpow_add₀ (by norm_num)]
      norm_num
      ring
    have hq : x / 2 ^ ulpExp x ≤ ((-(2 ^ 23) : ℤ) : ℚ) := by
      rw [div_le_iff₀ hu]
      push_cast
      linarith
    have hr : roundHalfEven (x / 2 ^ ulpExp x) ≤ -(2 ^ 23) := roundHalfEven_le_of_le hq
    have hr' : (roundHalfEven (x / 2 ^ ulpExp x) : ℚ) ≤ ((-(2 ^ 23) : ℤ) : ℚ) := by
      exact_mod_cast hr
    have h3 : roundToUlp x ≤ ((-(2 ^ 23) : ℤ) : ℚ) * 2 ^ ulpExp x := by
      unfold roundToUlp
      exact mul_le_mul_of_nonneg_right hr' hu.le
    have h4 := neg_abs_le f
    push_cast at h3
    linarith

lemma le_roundToUlp_of_isFloat_le {x f : ℚ} (hf : IsFloat f) (h : f ≤ x) : f ≤ roundToUlp x := by
  rcases eq_or_ne x 0 with rfl | hx
  · rw [roundToUlp_zero]
    exact h
  have hu := two_zpow_pos (ulpExp x)
  rcases isFloat_grid_or_small hx hf with ⟨z, hz⟩ | ⟨h1, h2⟩
  · have hq : (z : ℚ) ≤ x / 2 ^ ulpExp x := by
      rw [le_div_iff₀ hu, ← hz]
      exact h
    have hr : z ≤ roundHalfEven (x / 2 ^ ulpExp x) := le_roundHalfEven_of_le hq
    have hr' : (z : ℚ) ≤ (roundHalfEven (x / 2 ^ ulpExp x) : ℚ) := by exact_mod_cast hr
    unfold roundToUlp
    rw [hz]
    exact mul_le_mul_of_nonneg_right hr' hu.le
  · have hpos : 0 < x := by
      by_contra hnn
      push_neg at hnn
      rw [abs_of_nonpos hnn] at h2
      have := neg_abs_le f
      linarith
    rw [abs_of_pos hpos] at h2
    have hpow : (2 : ℚ) ^ (ulpExp x + 23) = 2 ^ 23 * 2 ^ ulpExp x := by
      rw [zpow_add₀ (by norm_num)]
      norm_num
      ring
    have hq : (((2 ^ 23 : ℤ)) : ℚ) ≤ x / 2 ^ ulpExp x := by
      rw [le_div_iff₀ hu]
      push_cast
      linarith
    have hr : (2 ^ 23 : ℤ) ≤ roundHalfEven (x / 2 ^ ulpExp x) := le_roundHalfEven_of_le hq
    have hr' : (((2 ^ 23 : ℤ)) : ℚ) ≤ (roundHalfEven (x / 2 ^ ulpExp x) : ℚ) := by
      exact_mod_cast hr
    have h3 : (((2 ^ 23 : ℤ)) : ℚ) * 2 ^ ulpExp x ≤ roundToUlp x := by
      unfold roundToUlp
      exact mul_le_mul_of_nonneg_right hr' hu.le
    have h4 := le_abs_self f
    push_cast at h3
    linarith

lemma isFloat_roundToUlp (q : ℚ) : IsFloat (roundToUlp q) := by
  have hu := two_zpow_pos (ulpExp q)
  have hlt := abs_lt_two_zpow_ulpExp q
  have hpow : (2 : ℚ) ^ (ulpExp q + 24) = 2 ^ 24 * 2 ^ ulpExp q := by
    rw [zpow_add₀ (by norm_num)]
    norm_num
    ring
  rw [hpow] at hlt
  have habs : |q / 2 ^ ulpExp q| < 2 ^ 24 := by
    rw [abs_div, abs_of_pos hu, div_lt_iff₀ hu]
    exact hlt
  rw [abs_lt] at habs
  have hle : roundHalfEven (q / 2 ^ ulpExp q) ≤ 2 ^ 24 :=
    roundHalfEven_le_of_le (by push_cast; linarith)
  have hge : -(2 ^ 24) ≤ roundHalfEven (q / 2 ^ ulpExp q) :=
    le_roundHalfEven_of_le (by push_cast; linarith)
  have hk := ulpExp_ge q
  have hpow1 : (2 : ℚ) ^ (ulpExp q + 1) = 2 * 2 ^ ulpExp q := by
    rw [zpow_add₀ (by norm_num)]
    norm_num
    ring
  rcases eq_or_lt_of_le hle with h1 | h1
  · refine ⟨2 ^ 23, ulpExp q + 1, by norm_num, by omega, ?_⟩
    unfold roundToUlp
    rw [h1, hpow1]
    push_cast
    ring
  rcases eq_or_lt_of_le hge with h2 | h2
  · refine ⟨-(2 ^ 23), ulpExp q + 1, by norm_num, by omega, ?_⟩
    unfold roundToUlp
    rw [← h2, hpow1]
    push_cast
    ring
  · exact ⟨roundHalfEven (q / 2 ^ ulpExp q), ulpExp q, abs_lt.mpr ⟨h2, h1⟩, hk, rfl⟩

lemma roundToUlp_of_isFloat {f : ℚ} (hf : IsFloat f) : roundToUlp f = f :=
  le_antisymm (roundToUlp_le_of_le_isFloat hf le_rfl) (le_roundToUlp_of_isFloat_le hf le_rfl)

lemma roundHalfEven_mono {r s : ℚ} (h : r ≤ s) : roundHalfEven r ≤ roundHalfEven s := by
  have hfl : ⌊r⌋ ≤ ⌊s⌋ := Int.floor_mono h
  rcases lt_or_eq_of_le hfl with hlt | heq
  · have h1 := roundHalfEven_le_floor_add_one r
    have h2 := floor_le_roundHalfEven s
    omega
  · have hfr : r - ⌊r⌋ ≤ s - ⌊s⌋ := by
      rw [heq]
      linarith
    unfold roundHalfEven
    rw [heq]
    split_ifs <;> first | omega | linarith

lemma isFloat_two_zpow {k : ℤ} (hk : -149 ≤ k) : IsFloat ((2 : ℚ) ^ k) :=
  ⟨1, k, by norm_num, hk, by norm_num⟩

lemma isFloat_neg {f : ℚ} (hf : IsFloat f) : IsFloat (-f) := by
  obtain ⟨n, k, hn, hk, rfl⟩ := hf
  exact ⟨-n, k, by rwa [abs_neg], hk, by push_cast; ring⟩

lemma isFloat_zero : IsFloat 0 := ⟨0, 0, by norm_num, by norm_num, by norm_num⟩

lemma exists_isFloat_between {x y : ℚ} (h : x ≤ y) (hu : ulpExp x ≠ ulpExp y) :
    ∃ f : ℚ, IsFloat f ∧ x ≤ f ∧ f ≤ y := by
  rcases le_or_lt x 0 with hx0 | hx0
  · rcases le_or_lt 0 y with hy0 | hy0
    · exact ⟨0, isFloat_zero, hx0, hy0⟩
    · have hxne : x ≠ 0 := by linarith
      have hx1 := abs_lt_two_zpow_ulpExp x
      have hy1 := abs_lt_two_zpow_ulpExp y
      rw [abs_of_neg (by linarith : x < 0)] at hx1
      rw [abs_of_neg hy0] at hy1
      rcases lt_or_gt_of_ne hu with hlt | hgt
      · have hy2 := two_zpow_ulpExp_le_abs (ne_of_lt hy0) (by have := ulpExp_ge x; omega)
        rw [abs_of_neg hy0] at hy2
        have h4 : (2 : ℚ) ^ (ulpExp x + 24) ≤ 2 ^ (ulpExp y + 23) :=
          zpow_le_zpow_right₀ (by norm_num) (by omega)
        linarith
      · have hx2 := two_zpow_ulpExp_le_abs hxne (by have := ulpExp_ge y; omega)
        rw [abs_of_neg (by linarith : x < 0)] at hx2
        have h4 : (2 : ℚ) ^ (ulpExp y + 24) ≤ 2 ^ (ulpExp x + 23) :=
          zpow_le_zpow_right₀ (by norm_num) (by omega)
        refine ⟨-(2 : ℚ) ^ (ulpExp x + 23),
          isFloat_neg (isFloat_two_zpow (by have := ulpExp_ge x; omega)), by linarith, by linarith⟩
  · have hy0 : 0 < y := lt_of_lt_of_le hx0 h
    have hx1 := abs_lt_two_zpow_ulpExp x
    have hy1 := abs_lt_two_zpow_ulpExp y
    rw [abs_of_pos hx0] at hx1
    rw [abs_of_pos hy0] at hy1
    rcases lt_or_gt_of_ne hu with hlt | hgt
    · have hy2 := two_zpow_ulpExp_le_abs (ne_of_gt hy0) (by have := ulpExp_ge x; omega)
      rw [abs_of_pos hy0] at hy2
      have h4 : (2 : ℚ) ^ (ulpExp x + 24) ≤ 2 ^ (ulpExp y + 23) :=
        zpow_le_zpow_right₀ (by norm_num) (by omega)
      exact ⟨(2 : ℚ) ^ (ulpExp y + 23),
        isFloat_two_zpow (by have := ulpExp_ge y; omega), by linarith, hy2⟩
    · have hx2 := two_zpow_ulpExp_le_abs (ne_of_gt hx0) (by have := ulpExp_ge y; omega)
      rw [abs_of_pos hx0] at hx2
      have h4 : (2 : ℚ) ^ (ulpExp y + 24) ≤ 2 ^ (ulpExp x + 23) :=
        zpow_le_zpow_right₀ (by norm_num) (by omega)
      linarith

lemma roundToUlp_mono {x y : ℚ} (h : x ≤ y) : roundToUlp x ≤ roundToUlp y := by
  by_cases hu : ulpExp x = ulpExp y
  · unfold roundToUlp
    rw [hu]
    have hpos := two_zpow_pos (ulpExp y)
    have hdiv : x / 2 ^ ulpExp y ≤ y / 2 ^ ulpExp y := div_le_div_of_nonneg_right h hpos.le
    have hr : (roundHalfEven (x / 2 ^ ulpExp y) : ℚ) ≤ (roundHalfEven (y / 2 ^ ulpExp y) : ℚ) := by
      exact_mod_cast roundHalfEven_mono hdiv
    exact mul_le_mul_of_nonneg_right hr hpos.le
  · obtain ⟨f, hf, hxf, hfy⟩ := exists_isFloat_between h hu
    exact (roundToUlp_le_of_le_isFloat hf hxf).trans (le_roundToUlp_of_isFloat_le hf hfy)

lemma binary32_eq_some_iff {x y : ℚ} :
    binary32 x = some y ↔ roundToUlp x = y ∧ |y| < 2 ^ 128 := by
  unfold binary32
  split_ifs with h
  · constructor
    · intro hxy
      have := Option.some.inj hxy
      subst this
      exact ⟨rfl, h⟩
    · rintro ⟨rfl, _⟩
      rfl
  · constructor
    · intro hxy
      simp at hxy
    · rintro ⟨rfl, h2⟩
      exact absurd h2 h

lemma binary32_of_isFloat {f : ℚ} (hf : IsFloat f) (hb : |f| < 2 ^ 128) : binary32 f = some f :=
  binary32_eq_some_iff.mpr ⟨roundToUlp_of_isFloat hf, hb⟩

lemma binary32_idem {x y : ℚ} (h : binary32 x = some y) : binary32 y = some y := by
  obtain ⟨h1, h2⟩ := binary32_eq_some_iff.mp h
  exact binary32_of_isFloat (h1 ▸ isFloat_roundToUlp x) h2

lemma binary32_mono {x y a b : ℚ} (h : x ≤ y) (hx : binary32 x = some a)
    (hy : binary32 y = some b) : a ≤ b := by
  obtain ⟨h1, _⟩ := binary32_eq_some_iff.mp hx
  obtain ⟨h2, _⟩ := binary32_eq_some_iff.mp hy
  rw [← h1, ← h2]
  exact roundToUlp_mono h

lemma isFloat_intCast_mul {n k : ℤ} (hn : |n| < 2 ^ 24) (hk : -149 ≤ k) :
    IsFloat ((n : ℚ) * 2 ^ k) := ⟨n, k, hn, hk, rfl⟩

lemma binary32_zero : binary32 0 = some 0 :=
  binary32_of_isFloat ⟨0, 0, by norm_num, by norm_num, by norm_num⟩ (by norm_num)

lemma binary32_one : binary32 1 = some 1 :=
  binary32_of_isFloat ⟨1, 0, by norm_num, by norm_num, by norm_num⟩ (by norm_num)

lemma binary32_overflow {q : ℚ} (h : 2 ^ 128 ≤ q) : binary32 q = none := by
  have hf : IsFloat ((2 : ℚ) ^ 128) := ⟨1, 128, by norm_num, by norm_num, by norm_num⟩
  have h1 := le_roundToUlp_of_isFloat_le hf h
  unfold binary32
  rw [if_neg]
  rw [not_lt]
  exact h1.trans (le_abs_self _)

lemma binary32_eq_of {q : ℚ} (e n : ℤ) (he : -126 ≤ e) (h1 : 2 ^ e ≤ |q|)
    (h2 : |q| < 2 ^ (e + 1)) (hn : |q / 2 ^ (e - 23) - n| < 1 / 2)
    (hb : |(n : ℚ) * 2 ^ (e - 23)| < 2 ^ 128) : binary32 q = some ((n : ℚ) * 2 ^ (e - 23)) := by
  have hu : ulpExp q = e - 23 := ulpExp_eq he h1 h2
  have hr : roundToUlp q = (n : ℚ) * 2 ^ (e - 23) := by
    unfold roundToUlp
    rw [hu, roundHalfEven_eq_of_abs_lt hn]
  exact binary32_eq_some_iff.mpr ⟨hr, hb⟩

/-- With no rounding the `float` evaluation of the perspective factor is the exact one. -/
lemma makeValues_u_extra_float_exact {F : Type} [LinearOrderedField F] {Args : Type}
    (m : CMath F) (properties : Evaluated F) (pixelRatio : F) (tile : RenderTile F)
    (state : TransformState F) (args : Args) :
    makeValues_u_extra_float some m state
      = (makeValues m properties pixelRatio tile state args).u_extra := by
  simp only [makeValues_u_extra_float, makeValues, Option.some_bind]
  cases fdiv (m.sqrt ((state.getSize.height : F) ^ 2 / 4 * (1 + state.getAltitude ^ 2))
      + (state.getSize.height : F) / 2 * m.tan state.getPitch)
      (m.sqrt ((state.getSize.height : F) ^ 2 / 4 * (1 + state.getAltitude ^ 2))) <;> rfl

/-! ## Evaluations of the `float` perspective factor -/

lemma makeValues_u_extra_float_eq_some {F : Type} [LinearOrderedField F] {fl : F → Option F}
    {m : CMath F} {state : TransformState F} {e : F}
    (h : makeValues_u_extra_float fl m state = some e) :
    ∃ topedgelength height half x sum rounded : F,
      fl (m.sqrt ((state.getSize.height : F) ^ 2 / 4 * (1 + state.getAltitude ^ 2)))
          = some topedgelength ∧
        fl (state.getSize.height : F) = some height ∧
        fl (height / 2) = some half ∧
        fl (half * m.tan state.getPitch) = some x ∧
        fl (topedgelength + x) = some sum ∧
        topedgelength ≠ 0 ∧
        fl (sum / topedgelength) = some rounded ∧
        fl (rounded - 1) = some e := by
  simp only [makeValues_u_extra_float, Option.bind_eq_some] at h
  obtain ⟨t, ht, hf, hhf, half, hhalf, x, hx, sum, hsum, q, hq, r, hr, he⟩ := h
  have hne : t ≠ 0 := by
    intro h0
    rw [h0, fdiv_zero] at hq
    exact Option.noConfusion hq
  rw [fdiv_ne_zero _ hne] at hq
  have hq' := Option.some.inj hq
  subst hq'
  exact ⟨t, hf, half, x, sum, r, ht, hhf, hhalf, hx, hsum, hne, hr, he⟩

lemma sampleCMath_sqrt_sq (n : ℕ) : sampleCMath.sqrt (((n * n : ℕ) : ℚ)) = n := by
  rcases Nat.eq_zero_or_pos n with rfl | hn
  · simp [sampleCMath]
  · have hpos : (0 : ℚ) < ((n * n : ℕ) : ℚ) := by exact_mod_cast Nat.mul_pos hn hn
    simp only [sampleCMath, not_le.mpr hpos, if_false, Rat.num_natCast, Rat.den_natCast,
      Int.toNat_ofNat, mul_one, Nat.sqrt_eq, Nat.cast_one, div_one]

lemma sampleCMath_sqrt_nonneg (y : ℚ) : 0 ≤ sampleCMath.sqrt y := by
  simp only [sampleCMath]
  split_ifs
  · exact le_rfl
  · positivity

lemma binary32_natCast {n : ℕ} (hn : n < 2 ^ 24) : binary32 (n : ℚ) = some (n : ℚ) := by
  have hn' : ((n : ℤ)) < 2 ^ 24 := by exact_mod_cast hn
  refine binary32_of_isFloat ⟨n, 0, ?_, by norm_num, by simp⟩ ?_
  · rw [abs_of_nonneg (by positivity)]
    exact hn'
  · rw [abs_of_nonneg (by positivity)]
    have h1 : (n : ℚ) < 2 ^ 24 := by exact_mod_cast hn
    have h2 : (2 : ℚ) ^ 24 < 2 ^ 128 := by norm_num
    linarith

lemma makeValues_u_extra_float_at_600 :
    makeValues_u_extra_float binary32 sampleCMath (stateOf (1 / 2 ^ 24) 0 (3 / 4) 600)
      = some (1 / 2 ^ 23) := by
  have harg : (((600 : ℕ) : ℚ)) ^ 2 / 4 * (1 + (3 / 4 : ℚ) ^ 2) = ((375 * 375 : ℕ) : ℚ) := by
    norm_num
  have ht : binary32 ((375 : ℕ) : ℚ) = some ((375 : ℕ) : ℚ) := binary32_natCast (by norm_num)
  have hh : binary32 ((600 : ℕ) : ℚ) = some ((600 : ℕ) : ℚ) := binary32_natCast (by norm_num)
  have hhalf : binary32 (((600 : ℕ) : ℚ) / 2) = some 300 := by
    have h := binary32_natCast (n := 300) (by norm_num)
    have e : (((600 : ℕ) : ℚ)) / 2 = ((300 : ℕ) : ℚ) := by norm_num
    rw [e, h]
    norm_num
  have hx : binary32 (300 * sampleCMath.tan (1 / 2 ^ 24)) = some (300 / 2 ^ 24) := by
    have h := binary32_eq_of (q := 300 * sampleCMath.tan (1 / 2 ^ 24)) (-16) 9830400
      (by norm_num) (by norm_num [sampleCMath, abs_of_pos])
      (by norm_num [sampleCMath, abs_of_pos]) (by norm_num [sampleCMath, abs_lt])
      (by norm_num [abs_of_pos])
    rw [h]
    norm_num
  have hs : binary32 (((375 : ℕ) : ℚ) + 300 / 2 ^ 24) = some (375 + 1 / 2 ^ 15) := by
    have h := binary32_eq_of (q := ((375 : ℕ) : ℚ) + 300 / 2 ^ 24) 8 12288001 (by norm_num)
      (by norm_num [abs_of_pos]) (by norm_num [abs_of_pos]) (by norm_num [abs_lt])
      (by norm_num [abs_of_pos])
    rw [h]
    norm_num
  have hdiv : fdiv (375 + 1 / 2 ^ 15 : ℚ) ((375 : ℕ) : ℚ) = some ((375 + 1 / 2 ^ 15) / 375) := by
    rw [fdiv_ne_zero _ (by norm_num)]
    norm_num
  have hq : binary32 ((375 + 1 / 2 ^ 15 : ℚ) / 375) = some (1 + 1 / 2 ^ 23) := by
    have h := binary32_eq_of (q := (375 + 1 / 2 ^ 15 : ℚ) / 375) 0 8388609 (by norm_num)
      (by norm_num [abs_of_pos]) (by norm_num [abs_of_pos]) (by norm_num [abs_lt])
      (by norm_num [abs_of_pos])
    rw [h]
    norm_num
  have he : binary32 ((1 + 1 / 2 ^ 23 : ℚ) - 1) = some (1 / 2 ^ 23) := by
    have h := binary32_of_isFloat (f := 1 / 2 ^ 23) ⟨1, -23, by norm_num, by norm_num, by norm_num⟩
      (by norm_num [abs_of_pos])
    rw [← h]
    norm_num
  simp only [makeValues_u_extra_float, stateOf]
  rw [harg, sampleCMath_sqrt_sq, ht, Option.some_bind, hh, Option.some_bind, hhalf,
    Option.some_bind, hx, Option.some_bind, hs, Option.some_bind, hdiv, Option.some_bind, hq,
    Option.some_bind, he]


lemma sampleCMath_sqrt_natCast (n : ℕ) : sampleCMath.sqrt ((n : ℚ)) = (Nat.sqrt n : ℚ) := by
  rcases Nat.eq_zero_or_pos n with rfl | hn
  · simp [sampleCMath]
  · have hpos : (0 : ℚ) < (n : ℚ) := by exact_mod_cast hn
    simp only [sampleCMath, not_le.mpr hpos, if_false, Rat.num_natCast, Rat.den_natCast,
      Int.toNat_ofNat, mul_one, Nat.cast_one, div_one]

lemma makeValues_u_extra_float_at_104 :
    makeValues_u_extra_float binary32 sampleCMath (stateOf (1 / 2 ^ 24) 0 (3 / 4) 104)
      = some 0 := by
  have harg : (((104 : ℕ) : ℚ)) ^ 2 / 4 * (1 + (3 / 4 : ℚ) ^ 2) = ((65 * 65 : ℕ) : ℚ) := by
    norm_num
  have ht : binary32 ((65 : ℕ) : ℚ) = some ((65 : ℕ) : ℚ) := binary32_natCast (by norm_num)
  have hh : binary32 ((104 : ℕ) : ℚ) = some ((104 : ℕ) : ℚ) := binary32_natCast (by norm_num)
  have hhalf : binary32 (((104 : ℕ) : ℚ) / 2) = some 52 := by
    have h := binary32_natCast (n := 52) (by norm_num)
    have e : (((104 : ℕ) : ℚ)) / 2 = ((52 : ℕ) : ℚ) := by norm_num
    rw [e, h]
    norm_num
  have hx : binary32 (52 * sampleCMath.tan (1 / 2 ^ 24)) = some (52 / 2 ^ 24) := by
    have h := binary32_eq_of (q := 52 * sampleCMath.tan (1 / 2 ^ 24)) (-19) 13631488
      (by norm_num) (by norm_num [sampleCMath, abs_of_pos])
      (by norm_num [sampleCMath, abs_of_pos]) (by norm_num [sampleCMath, abs_lt])
      (by norm_num [abs_of_pos])
    rw [h]
    norm_num
  have hs : binary32 (((65 : ℕ) : ℚ) + 52 / 2 ^ 24) = some ((65 : ℕ) : ℚ) := by
    have h := binary32_eq_of (q := ((65 : ℕ) : ℚ) + 52 / 2 ^ 24) 6 8519680 (by norm_num)
      (by norm_num [abs_of_pos]) (by norm_num [abs_of_pos]) (by norm_num [abs_lt])
      (by norm_num [abs_of_pos])
    rw [h]
    norm_num
  have hdiv : fdiv (((65 : ℕ) : ℚ)) ((65 : ℕ) : ℚ) = some 1 := by
    rw [fdiv_ne_zero _ (by norm_num)]
    norm_num
  have he : binary32 ((1 : ℚ) - 1) = some 0 := by
    rw [sub_self]
    exact binary32_zero
  simp only [makeValues_u_extra_float, stateOf]
  rw [harg, sampleCMath_sqrt_sq, ht, Option.some_bind, hh, Option.some_bind, hhalf,
    Option.some_bind, hx, Option.some_bind, hs, Option.some_bind, hdiv, Option.some_bind,
    binary32_one, Option.some_bind, he]

lemma makeValues_u_extra_float_height_zero :
    makeValues_u_extra_float binary32 sampleCMath (stateOf 0 0 (3 / 4) 0) = none := by
  simp only [makeValues_u_extra_float, stateOf]
  norm_num [sampleCMath, binary32_zero, fdiv]

lemma makeValues_u_extra_float_overflow :
    makeValues_u_extra_float binary32 sampleCMath (stateOf 0 0 (2 ^ 125) 600) = none := by
  have harg : (((600 : ℕ) : ℚ)) ^ 2 / 4 * (1 + ((2 : ℚ) ^ 125) ^ 2)
      = ((90000 * (1 + 2 ^ 250) : ℕ) : ℚ) := by
    norm_num
  have hsqrt : Nat.sqrt (90000 * (1 + 2 ^ 250)) = 300 * 2 ^ 125 := by
    symm
    rw [Nat.eq_sqrt]
    constructor <;> norm_num
  have hover : binary32 (((300 * 2 ^ 125 : ℕ)) : ℚ) = none :=
    binary32_overflow (by norm_num)
  simp only [makeValues_u_extra_float, stateOf]
  rw [harg, sampleCMath_sqrt_natCast, hsqrt, hover]
  rfl

/-! ## C1: the scalar base fields -/

/-- C1: for every property set, pixel ratio, tile and transform, `makeValues` (with any
forwarded arguments, hence each of the three builders) sets `u_opacity` to the line opacity
unchanged, `u_linewidth` to `width / 2`, `u_gapwidth` to `gapWidth / 2` and `u_offset` to
the negated line offset. -/
theorem makeValues_scalar_fields {F : Type} [LinearOrderedField F] {Args : Type}
    (m : CMath F) (properties : Evaluated F) (pixelRatio : F) (tile : RenderTile F)
    (state : TransformState F) (args : Args)
    (dashA dashB : LinePatternPos F) (dashLineWidth atlasWidth : F)
    (posA posB : SpriteAtlasPosition F) :
    ((makeValues m properties pixelRatio tile state args).u_opacity = properties.LineOpacity ∧
      (makeValues m properties pixelRatio tile state args).u_linewidth
        = properties.LineWidth / 2 ∧
      (makeValues m properties pixelRatio tile state args).u_gapwidth
        = properties.LineGapWidth / 2 ∧
      (makeValues m properties pixelRatio tile state args).u_offset
        = -properties.LineOffset) ∧
    ((LineProgram.uniformValues m properties pixelRatio tile state).u_opacity
        = properties.LineOpacity ∧
      (LineProgram.uniformValues m properties pixelRatio tile state).u_linewidth
        = properties.LineWidth / 2 ∧
      (LineProgram.uniformValues m properties pixelRatio tile state).u_gapwidth
        = properties.LineGapWidth / 2 ∧
      (LineProgram.uniformValues m properties pixelRatio tile state).u_offset
        = -properties.LineOffset) ∧
    ((LineSDFProgram.uniformValues m properties pixelRatio tile state dashA dashB
        dashLineWidth atlasWidth).u_opacity = properties.LineOpacity ∧
      (LineSDFProgram.uniformValues m properties pixelRatio tile state dashA dashB
        dashLineWidth atlasWidth).u_linewidth = properties.LineWidth / 2 ∧
      (LineSDFProgram.uniformValues m properties pixelRatio tile state dashA dashB
        dashLineWidth atlasWidth).u_gapwidth = properties.LineGapWidth / 2 ∧
      (LineSDFProgram.uniformValues m properties pixelRatio tile state dashA dashB
        dashLineWidth atlasWidth).u_offset = -properties.LineOffset) ∧
    ((LinePatternProgram.uniformValues m properties pixelRatio tile state posA posB).u_opacity
        = properties.LineOpacity ∧
      (LinePatternProgram.uniformValues m properties pixelRatio tile state posA posB).u_linewidth
        = properties.LineWidth / 2 ∧
      (LinePatternProgram.uniformValues m properties pixelRatio tile state posA posB).u_gapwidth
        = properties.LineGapWidth / 2 ∧
      (LinePatternProgram.uniformValues m properties pixelRatio tile state posA posB).u_offset
        = -properties.LineOffset) := by
  refine ⟨⟨rfl, rfl, rfl, rfl⟩, ⟨rfl, rfl, rfl, rfl⟩, ⟨rfl, rfl, rfl, rfl⟩, ⟨rfl, rfl, rfl, rfl⟩⟩

/-! ## C2: the antialiasing width -/

/-- C2: for every pixel ratio `> 0`, `makeValues` sets `u_antialiasing` to
`(1 / pixelRatio) / 2` and `u_blur` to `blur + 1 / pixelRatio`, both finite; for
`pixelRatio = 2` the antialiasing width is `1/2`, `u_antialiasing` is `1/4` and `u_blur` is
`blur + 1/2`. -/
theorem makeValues_antialiasing {F : Type} [LinearOrderedField F] {Args : Type}
    (m : CMath F) (properties : Evaluated F) (pixelRatio : F) (tile : RenderTile F)
    (state : TransformState F) (args : Args) (h : 0 < pixelRatio) :
    (makeValues m properties pixelRatio tile state args).u_antialiasing
        = some (1 / pixelRatio / 2) ∧
      (makeValues m properties pixelRatio tile state args).u_blur
        = some (properties.LineBlur + 1 / pixelRatio) ∧
      (pixelRatio = 2 →
        fdiv 1 pixelRatio = some (1 / 2) ∧
        (makeValues m properties pixelRatio tile state args).u_antialiasing = some (1 / 4) ∧
        (makeValues m properties pixelRatio tile state args).u_blur
          = some (properties.LineBlur + 1 / 2)) := by
  have hne : pixelRatio ≠ 0 := ne_of_gt h
  have hd : fdiv 1 pixelRatio = some (1 / pixelRatio) := fdiv_ne_zero 1 hne
  refine ⟨?_, ?_, ?_⟩
  · simp [makeValues, hd]
  · simp [makeValues, hd]
  · intro h2
    subst h2
    refine ⟨hd, ?_, ?_⟩
    · simp only [makeValues, hd, Option.map_some']
      norm_num
    · simp [makeValues, hd]

/-- Witness for C2 at `pixelRatio = 2` and blur `0`. -/
theorem makeValues_antialiasing_witness :
    (0 : ℚ) < 2 ∧
      (makeValues sampleCMath sampleProperties 2 sampleTile (sampleState 0 0 600) ()).u_antialiasing
        = some (1 / 4) ∧
      (makeValues sampleCMath sampleProperties 2 sampleTile (sampleState 0 0 600) ()).u_blur
        = some (0 + 1 / 2) :=
  ⟨by norm_num,
    ((makeValues_antialiasing sampleCMath sampleProperties 2 sampleTile (sampleState 0 0 600) ()
      (by norm_num)).2.2 rfl).2.1,
    ((makeValues_antialiasing sampleCMath sampleProperties 2 sampleTile (sampleState 0 0 600) ()
      (by norm_num)).2.2 rfl).2.2⟩

/-! ## C3: the SDF gamma -/

/-- C3: for every input of `LineSDFProgram::uniformValues`, `u_sdfgamma` is
`atlasWidth / (min(widthA, widthB) * 256 * pixelRatio) / 2` with
`widthA = posA.width * fromScale * dashLineWidth` and
`widthB = posB.width * toScale * dashLineWidth` (a finite number with that value whenever the
divisor is not zero); for `widthA = 10`, `widthB = 20`, `atlasWidth = 256`, `pixelRatio = 1`
it is `1/20 = 0.05`. -/
theorem sdf_u_sdfgamma {F : Type} [LinearOrderedField F]
    (m : CMath F) (properties : Evaluated F) (pixelRatio : F) (tile : RenderTile F)
    (state : TransformState F) (posA posB : LinePatternPos F) (dashLineWidth atlasWidth : F) :
    (LineSDFProgram.uniformValues m properties pixelRatio tile state posA posB
        dashLineWidth atlasWidth).args.u_sdfgamma
      = (fdiv atlasWidth
          (min (posA.width * properties.LineDasharray.fromScale * dashLineWidth)
              (posB.width * properties.LineDasharray.toScale * dashLineWidth)
            * 256 * pixelRatio)).map (fun g => g / 2) ∧
    (min (posA.width * properties.LineDasharray.fromScale * dashLineWidth)
          (posB.width * properties.LineDasharray.toScale * dashLineWidth)
        * 256 * pixelRatio ≠ 0 →
      (LineSDFProgram.uniformValues m properties pixelRatio tile state posA posB
          dashLineWidth atlasWidth).args.u_sdfgamma
        = some (atlasWidth /
            (min (posA.width * properties.LineDasharray.fromScale * dashLineWidth)
                (posB.width * properties.LineDasharray.toScale * dashLineWidth)
              * 256 * pixelRatio) / 2)) ∧
    (posA.width * properties.LineDasharray.fromScale * dashLineWidth = 10 →
      posB.width * properties.LineDasharray.toScale * dashLineWidth = 20 →
      atlasWidth = 256 → pixelRatio = 1 →
      (LineSDFProgram.uniformValues m properties pixelRatio tile state posA posB
          dashLineWidth atlasWidth).args.u_sdfgamma = some (1 / 20)) := by
  refine ⟨rfl, ?_, ?_⟩
  · intro h
    simp [LineSDFProgram.uniformValues, makeValues, fdiv_ne_zero _ h]
  · intro hA hB hw hp
    have hd : (min (10 : F) 20 * 256 * 1) ≠ 0 := by
      rw [min_eq_left (by norm_num : (10 : F) ≤ 20)]
      norm_num
    simp only [LineSDFProgram.uniformValues, makeValues, hA, hB, hw, hp, fdiv_ne_zero _ hd,
      Option.map_some', Option.some.injEq]
    rw [min_eq_left (by norm_num : (10 : F) ≤ 20)]
    norm_num

/-- Witness for C3: dash widths `10` and `20`, scales `1`, atlas width `256`, pixel ratio `1`. -/
theorem sdf_u_sdfgamma_witness :
    (samplePos 10).width * sampleProperties.LineDasharray.fromScale * 1 = 10 ∧
      (samplePos 20).width * sampleProperties.LineDasharray.toScale * 1 = 20 ∧
      (LineSDFProgram.uniformValues sampleCMath sampleProperties 1 sampleTile
          (sampleState 0 0 600) (samplePos 10) (samplePos 20) 1 256).args.u_sdfgamma
        = some (1 / 20) :=
  ⟨by norm_num [samplePos, sampleProperties], by norm_num [samplePos, sampleProperties],
    (sdf_u_sdfgamma sampleCMath sampleProperties 1 sampleTile (sampleState 0 0 600)
      (samplePos 10) (samplePos 20) 1 256).2.2
      (by norm_num [samplePos, sampleProperties]) (by norm_num [samplePos, sampleProperties])
      rfl rfl⟩

/-! ## C4: the dash pattern scales -/

/-- C4: for every input of `LineSDFProgram::uniformValues`, `u_patternscale_a` is the pair
`(1 / pixelsToTileUnits(widthA, integerZoom), -posA.height / 2)` with
`widthA = posA.width * fromScale * dashLineWidth` (its first component finite with that value
whenever the conversion is not zero), `u_patternscale_b` is the same pair built from `posB`
and `toScale`, and neither depends on the continuous zoom. -/
theorem sdf_u_patternscale {F : Type} [LinearOrderedField F]
    (m : CMath F) (properties : Evaluated F) (pixelRatio : F) (tile : RenderTile F)
    (state : TransformState F) (posA posB : LinePatternPos F) (dashLineWidth atlasWidth : F) :
    ((LineSDFProgram.uniformValues m properties pixelRatio tile state posA posB
          dashLineWidth atlasWidth).args.u_patternscale_a
        = (fdiv 1 (tile.pixelsToTileUnits
              (posA.width * properties.LineDasharray.fromScale * dashLineWidth)
              (state.getIntegerZoom : F)),
            some (-posA.height / 2)) ∧
      (LineSDFProgram.uniformValues m properties pixelRatio tile state posA posB
          dashLineWidth atlasWidth).args.u_patternscale_b
        = (fdiv 1 (tile.pixelsToTileUnits
              (posB.width * properties.LineDasharray.toScale * dashLineWidth)
              (state.getIntegerZoom : F)),
            some (-posB.height / 2))) ∧
    (tile.pixelsToTileUnits (posA.width * properties.LineDasharray.fromScale * dashLineWidth)
          (state.getIntegerZoom : F) ≠ 0 →
      tile.pixelsToTileUnits (posB.width * properties.LineDasharray.toScale * dashLineWidth)
          (state.getIntegerZoom : F) ≠ 0 →
      (LineSDFProgram.uniformValues m properties pixelRatio tile state posA posB
          dashLineWidth atlasWidth).args.u_patternscale_a
        = (some (1 / tile.pixelsToTileUnits
              (posA.width * properties.LineDasharray.fromScale * dashLineWidth)
              (state.getIntegerZoom : F)),
            some (-posA.height / 2)) ∧
      (LineSDFProgram.uniformValues m properties pixelRatio tile state posA posB
          dashLineWidth atlasWidth).args.u_patternscale_b
        = (some (1 / tile.pixelsToTileUnits
              (posB.width * properties.LineDasharray.toScale * dashLineWidth)
              (state.getIntegerZoom : F)),
            some (-posB.height / 2))) ∧
    (∀ zoom : F,
      (LineSDFProgram.uniformValues m properties pixelRatio tile
          { state with getZoom := zoom } posA posB dashLineWidth atlasWidth).args.u_patternscale_a
        = (LineSDFProgram.uniformValues m properties pixelRatio tile state posA posB
            dashLineWidth atlasWidth).args.u_patternscale_a ∧
      (LineSDFProgram.uniformValues m properties pixelRatio tile
          { state with getZoom := zoom } posA posB dashLineWidth atlasWidth).args.u_patternscale_b
        = (LineSDFProgram.uniformValues m properties pixelRatio tile state posA posB
            dashLineWidth atlasWidth).args.u_patternscale_b) := by
  refine ⟨⟨rfl, rfl⟩, ?_, fun _ => ⟨rfl, rfl⟩⟩
  intro hA hB
  simp [LineSDFProgram.uniformValues, makeValues, fdiv_ne_zero _ hA, fdiv_ne_zero _ hB]

/-- Witness for C4: dash widths `10` and `20` on a tile with sixteen tile units per pixel, at
continuous zoom `12.5` and integer zoom `12`. -/
theorem sdf_u_patternscale_witness :
    sampleTile.pixelsToTileUnits
        ((samplePos 10).width * sampleProperties.LineDasharray.fromScale * 1)
        (((sampleState 0 0 600).getIntegerZoom : ℤ) : ℚ) ≠ 0 ∧
    sampleTile.pixelsToTileUnits
        ((samplePos 20).width * sampleProperties.LineDasharray.toScale * 1)
        (((sampleState 0 0 600).getIntegerZoom : ℤ) : ℚ) ≠ 0 ∧
    (LineSDFProgram.uniformValues sampleCMath sampleProperties 1 sampleTile
        (sampleState 0 0 600) (samplePos 10) (samplePos 20) 1 256).args.u_patternscale_a
      = (some (1 / 160), some (-8)) ∧
    (LineSDFProgram.uniformValues sampleCMath sampleProperties 1 sampleTile
        (sampleState 0 0 600) (samplePos 10) (samplePos 20) 1 256).args.u_patternscale_b
      = (some (1 / 320), some (-8)) := by
  have hA : sampleTile.pixelsToTileUnits
      ((samplePos 10).width * sampleProperties.LineDasharray.fromScale * 1)
      (((sampleState 0 0 600).getIntegerZoom : ℤ) : ℚ) ≠ 0 := by
    norm_num [sampleTile, samplePos, sampleProperties]
  have hB : sampleTile.pixelsToTileUnits
      ((samplePos 20).width * sampleProperties.LineDasharray.toScale * 1)
      (((sampleState 0 0 600).getIntegerZoom : ℤ) : ℚ) ≠ 0 := by
    norm_num [sampleTile, samplePos, sampleProperties]
  have h := (sdf_u_patternscale sampleCMath sampleProperties 1 sampleTile
    (sampleState 0 0 600) (samplePos 10) (samplePos 20) 1 256).2.1 hA hB
  refine ⟨hA, hB, h.1.trans ?_, h.2.trans ?_⟩ <;>
    norm_num [sampleTile, samplePos, sampleProperties]

/-! ## C5: the pattern sizes -/

/-- C5: for every input of `LinePatternProgram::uniformValues`, `u_pattern_size_a` is
`(pixelsToTileUnits(posA.size[0] * fromScale, integerZoom), posA.size[1])` and
`u_pattern_size_b` the same pair from `posB` and `toScale`; so when the conversion is the
identity at the integer zoom, a texel width `32` with `fromScale = 1` gives a first
component `32`. -/
theorem pattern_u_pattern_size {F : Type} [LinearOrderedField F]
    (m : CMath F) (properties : Evaluated F) (pixelRatio : F) (tile : RenderTile F)
    (state : TransformState F) (posA posB : SpriteAtlasPosition F) :
    ((LinePatternProgram.uniformValues m properties pixelRatio tile state posA posB).args.u_pattern_size_a
        = (tile.pixelsToTileUnits (posA.size.1 * properties.LinePattern.fromScale)
            (state.getIntegerZoom : F), posA.size.2) ∧
      (LinePatternProgram.uniformValues m properties pixelRatio tile state posA posB).args.u_pattern_size_b
        = (tile.pixelsToTileUnits (posB.size.1 * properties.LinePattern.toScale)
            (state.getIntegerZoom : F), posB.size.2)) ∧
    ((∀ v : F, tile.pixelsToTileUnits v (state.getIntegerZoom : F) = v) →
      posA.size.1 = 32 → properties.LinePattern.fromScale = 1 →
      (LinePatternProgram.uniformValues m properties pixelRatio tile state posA
        posB).args.u_pattern_size_a.1 = 32) := by
  refine ⟨⟨rfl, rfl⟩, ?_⟩
  intro hid hw hs
  simp [LinePatternProgram.uniformValues, makeValues, hid, hw, hs]

/-- Witness for C5: a `32 x 8` image with `fromScale = 1` on a tile whose conversion is the
identity. -/
theorem pattern_u_pattern_size_witness :
    (∀ v : ℚ, unitTile.pixelsToTileUnits v (((sampleState 0 0 600).getIntegerZoom : ℤ) : ℚ) = v) ∧
      (sampleSprite 32 8).size.1 = 32 ∧ sampleProperties.LinePattern.fromScale = 1 ∧
      (LinePatternProgram.uniformValues sampleCMath sampleProperties 1 unitTile
        (sampleState 0 0 600) (sampleSprite 32 8) (sampleSprite 64 8)).args.u_pattern_size_a.1
        = 32 :=
  ⟨fun _ => rfl, rfl, rfl,
    (pattern_u_pattern_size sampleCMath sampleProperties 1 unitTile (sampleState 0 0 600)
      (sampleSprite 32 8) (sampleSprite 64 8)).2 (fun _ => rfl) rfl rfl⟩

/-! ## C6: the three builders share the base fields -/

/-- C6: for every choice of properties, pixel ratio, tile and transform and every choice of
the dashed and pattern arguments, each of the ten base fields returned by
`LineProgram::uniformValues` equals the same field returned by
`LineSDFProgram::uniformValues` and by `LinePatternProgram::uniformValues` (so the base fields
do not depend on the atlas entries, `dashLineWidth` or `atlasWidth`), and the solid and the
dashed builder return the same `u_color`. -/
theorem uniformValues_base_fields_agree {F : Type} [LinearOrderedField F]
    (m : CMath F) (properties : Evaluated F) (pixelRatio : F) (tile : RenderTile F)
    (state : TransformState F)
    (dashA dashB : LinePatternPos F) (dashLineWidth atlasWidth : F)
    (posA posB : SpriteAtlasPosition F) :
    ((LineProgram.uniformValues m properties pixelRatio tile state).u_matrix
        = (LineSDFProgram.uniformValues m properties pixelRatio tile state dashA dashB
            dashLineWidth atlasWidth).u_matrix ∧
      (LineProgram.uniformValues m properties pixelRatio tile state).u_opacity
        = (LineSDFProgram.uniformValues m properties pixelRatio tile state dashA dashB
            dashLineWidth atlasWidth).u_opacity ∧
      (LineProgram.uniformValues m properties pixelRatio tile state).u_linewidth
        = (LineSDFProgram.uniformValues m properties pixelRatio tile state dashA dashB
            dashLineWidth atlasWidth).u_linewidth ∧
      (LineProgram.uniformValues m properties pixelRatio tile state).u_gapwidth
        = (LineSDFProgram.uniformValues m properties pixelRatio tile state dashA dashB
            dashLineWidth atlasWidth).u_gapwidth ∧
      (LineProgram.uniformValues m properties pixelRatio tile state).u_blur
        = (LineSDFProgram.uniformValues m properties pixelRatio tile state dashA dashB
            dashLineWidth atlasWidth).u_blur ∧
      (LineProgram.uniformValues m properties pixelRatio tile state).u_offset
        = (LineSDFProgram.uniformValues m properties pixelRatio tile state dashA dashB
            dashLineWidth atlasWidth).u_offset ∧
      (LineProgram.uniformValues m properties pixelRatio tile state).u_antialiasing
        = (LineSDFProgram.uniformValues m properties pixelRatio tile state dashA dashB
            dashLineWidth atlasWidth).u_antialiasing ∧
      (LineProgram.uniformValues m properties pixelRatio tile state).u_antialiasingmatrix
        = (LineSDFProgram.uniformValues m properties pixelRatio tile state dashA dashB
            dashLineWidth atlasWidth).u_antialiasingmatrix ∧
      (LineProgram.uniformValues m properties pixelRatio tile state).u_ratio
        = (LineSDFProgram.uniformValues m properties pixelRatio tile state dashA dashB
            dashLineWidth atlasWidth).u_ratio ∧
      (LineProgram.uniformValues m properties pixelRatio tile state).u_extra
        = (LineSDFProgram.uniformValues m properties pixelRatio tile state dashA dashB
            dashLineWidth atlasWidth).u_extra) ∧
    ((LineProgram.uniformValues m properties pixelRatio tile state).u_matrix
        = (LinePatternProgram.uniformValues m properties pixelRatio tile state posA posB).u_matrix ∧
      (LineProgram.uniformValues m properties pixelRatio tile state).u_opacity
        = (LinePatternProgram.uniformValues m properties pixelRatio tile state posA posB).u_opacity ∧
      (LineProgram.uniformValues m properties pixelRatio tile state).u_linewidth
        = (LinePatternProgram.uniformValues m properties pixelRatio tile state posA
            posB).u_linewidth ∧
      (LineProgram.uniformValues m properties pixelRatio tile state).u_gapwidth
        = (LinePatternProgram.uniformValues m properties pixelRatio tile state posA
            posB).u_gapwidth ∧
      (LineProgram.uniformValues m properties pixelRatio tile state).u_blur
        = (LinePatternProgram.uniformValues m properties pixelRatio tile state posA posB).u_blur ∧
      (LineProgram.uniformValues m properties pixelRatio tile state).u_offset
        = (LinePatternProgram.uniformValues m properties pixelRatio tile state posA posB).u_offset ∧
      (LineProgram.uniformValues m properties pixelRatio tile state).u_antialiasing
        = (LinePatternProgram.uniformValues m properties pixelRatio tile state posA
            posB).u_antialiasing ∧
      (LineProgram.uniformValues m properties pixelRatio tile state).u_antialiasingmatrix
        = (LinePatternProgram.uniformValues m properties pixelRatio tile state posA
            posB).u_antialiasingmatrix ∧
      (LineProgram.uniformValues m properties pixelRatio tile state).u_ratio
        = (LinePatternProgram.uniformValues m properties pixelRatio tile state posA posB).u_ratio ∧
      (LineProgram.uniformValues m properties pixelRatio tile state).u_extra
        = (LinePatternProgram.uniformValues m properties pixelRatio tile state posA
            posB).u_extra) ∧
    (LineProgram.uniformValues m properties pixelRatio tile state).args.u_color
      = (LineSDFProgram.uniformValues m properties pixelRatio tile state dashA dashB
          dashLineWidth atlasWidth).args.u_color := by
  refine ⟨⟨rfl, rfl, rfl, rfl, rfl, rfl, rfl, rfl, rfl, rfl⟩,
    ⟨rfl, rfl, rfl, rfl, rfl, rfl, rfl, rfl, rfl, rfl⟩, rfl⟩

/-! ## C7: the perspective factor at pitch zero -/

/-- C7, counterexample: at pitch `0` the field `u_extra` is not `0` for every altitude and
every viewport size.  With a viewport of height `0` the top edge length is `0` and the
quotient is `0 / 0`, in exact arithmetic and in `float` arithmetic alike; with a viewport
`600` pixels high and altitude `2 ^ 125` the top edge length `300 * 2 ^ 125` overflows the
`float` variable and the quotient is not finite. -/
theorem makeValues_u_extra_pitch_zero_not_zero :
    ((sampleState 0 0 0).getPitch = 0 ∧
      (makeValues sampleCMath sampleProperties 1 sampleTile (sampleState 0 0 0) ()).u_extra
        = none) ∧
    ((stateOf 0 0 (3 / 4) 0 : TransformState ℚ).getPitch = 0 ∧
      makeValues_u_extra_float binary32 sampleCMath (stateOf 0 0 (3 / 4) 0) = none ∧
      makeValues_u_extra_float binary32 sampleCMath (stateOf 0 0 (3 / 4) 0) ≠ some 0) ∧
    ((stateOf 0 0 (2 ^ 125) 600 : TransformState ℚ).getPitch = 0 ∧
      makeValues_u_extra_float binary32 sampleCMath (stateOf 0 0 (2 ^ 125) 600) = none ∧
      makeValues_u_extra_float binary32 sampleCMath (stateOf 0 0 (2 ^ 125) 600) ≠ some 0) := by
  refine ⟨⟨rfl, ?_⟩, ⟨rfl, makeValues_u_extra_float_height_zero, ?_⟩,
    ⟨rfl, makeValues_u_extra_float_overflow, ?_⟩⟩
  · simp [makeValues, sampleState, sampleCMath, fdiv]
  · rw [makeValues_u_extra_float_height_zero]
    simp
  · rw [makeValues_u_extra_float_overflow]
    simp

/-- C7, amended: in `float` arithmetic, when pitch is `0` the field `u_extra` is exactly `0`
for every altitude and every viewport size at which the top edge length is a finite `float`
other than `0` (and the viewport height converts to `float`); and whenever `u_extra` is
finite at pitch `0`, it is `0`.  The conversion `fl` to `float` is any one that keeps `0`,
`1` and every value it returns unchanged; the library has `tan 0 = 0`. -/
theorem makeValues_u_extra_float_pitch_zero {F : Type} [LinearOrderedField F]
    (fl : F → Option F) (m : CMath F) (state : TransformState F)
    (hzero : fl 0 = some 0) (hone : fl 1 = some 1)
    (hidem : ∀ a b : F, fl a = some b → fl b = some b)
    (htan : m.tan 0 = 0) (hpitch : state.getPitch = 0) :
    (∀ topedgelength height half : F,
      fl (m.sqrt ((state.getSize.height : F) ^ 2 / 4 * (1 + state.getAltitude ^ 2)))
          = some topedgelength →
        topedgelength ≠ 0 →
        fl (state.getSize.height : F) = some height →
        fl (height / 2) = some half →
        makeValues_u_extra_float fl m state = some 0) ∧
    (∀ e : F, makeValues_u_extra_float fl m state = some e → e = 0) := by
  have main : ∀ topedgelength height half : F,
      fl (m.sqrt ((state.getSize.height : F) ^ 2 / 4 * (1 + state.getAltitude ^ 2)))
          = some topedgelength →
        topedgelength ≠ 0 →
        fl (state.getSize.height : F) = some height →
        fl (height / 2) = some half →
        makeValues_u_extra_float fl m state = some 0 := by
    intro t hf half ht hne hhf hhalf
    have hdiv : fdiv t t = some 1 := by
      rw [fdiv_ne_zero _ hne, div_self hne]
    simp only [makeValues_u_extra_float, ht, hhf, hhalf, hpitch, htan, mul_zero, hzero,
      add_zero, hidem _ _ ht, hdiv, hone, sub_self, Option.some_bind]
  refine ⟨main, ?_⟩
  intro e he
  obtain ⟨t, hf, half, x, sum, r, ht, hhf, hhalf, _, _, hne, _, _⟩ :=
    makeValues_u_extra_float_eq_some he
  have h0 := main t hf half ht hne hhf hhalf
  rw [h0] at he
  exact (Option.some.inj he).symm

/-- Witness for C7, amended: binary32, pitch `0`, altitude `3/4` and a viewport `600` pixels
high, where the top edge length is `375`. -/
theorem makeValues_u_extra_float_pitch_zero_witness :
    binary32 0 = some 0 ∧ binary32 1 = some 1 ∧
      (∀ a b : ℚ, binary32 a = some b → binary32 b = some b) ∧
      sampleCMath.tan 0 = 0 ∧
      (stateOf 0 0 (3 / 4) 600 : TransformState ℚ).getPitch = 0 ∧
      binary32 (sampleCMath.sqrt
          ((((stateOf 0 0 (3 / 4) 600 : TransformState ℚ).getSize.height : ℕ) : ℚ) ^ 2 / 4
            * (1 + (stateOf 0 0 (3 / 4) 600 : TransformState ℚ).getAltitude ^ 2)))
        = some 375 ∧
      makeValues_u_extra_float binary32 sampleCMath (stateOf 0 0 (3 / 4) 600) = some 0 := by
  have htan : sampleCMath.tan 0 = 0 := by norm_num [sampleCMath]
  have harg : (((stateOf 0 0 (3 / 4) 600 : TransformState ℚ).getSize.height : ℕ) : ℚ) ^ 2 / 4
      * (1 + (stateOf 0 0 (3 / 4) 600 : TransformState ℚ).getAltitude ^ 2)
      = ((375 * 375 : ℕ) : ℚ) := by
    norm_num [stateOf]
  have h375 : binary32 ((375 : ℕ) : ℚ) = some ((375 : ℕ) : ℚ) := binary32_natCast (by norm_num)
  have ht : binary32 (sampleCMath.sqrt
      ((((stateOf 0 0 (3 / 4) 600 : TransformState ℚ).getSize.height : ℕ) : ℚ) ^ 2 / 4
        * (1 + (stateOf 0 0 (3 / 4) 600 : TransformState ℚ).getAltitude ^ 2)))
      = some 375 := by
    rw [harg, sampleCMath_sqrt_sq, h375]
    norm_num
  have hh : binary32 (((stateOf 0 0 (3 / 4) 600 : TransformState ℚ).getSize.height : ℕ) : ℚ)
      = some 600 := by
    have h := binary32_natCast (n := 600) (by norm_num)
    simp only [stateOf]
    rw [h]
    norm_num
  have hhalf : binary32 ((600 : ℚ) / 2) = some 300 := by
    have h := binary32_natCast (n := 300) (by norm_num)
    have e : (600 : ℚ) / 2 = ((300 : ℕ) : ℚ) := by norm_num
    rw [e, h]
    norm_num
  exact ⟨binary32_zero, binary32_one, fun a b h => binary32_idem h, htan, rfl, ht,
    (makeValues_u_extra_float_pitch_zero binary32 sampleCMath (stateOf 0 0 (3 / 4) 600)
      binary32_zero binary32_one (fun a b h => binary32_idem h) htan rfl).1
      375 600 300 ht (by norm_num) hh hhalf⟩

/-! ## C8: the antialiasing matrix at pitch zero and bearing zero -/

/-- C8: when pitch is `0` and the bearing angle is `0`, `u_antialiasingmatrix` is the
`2 x 2` identity matrix (for a library with `cos 0 = 1` and `sin 0 = 0`). -/
theorem makeValues_antialiasingmatrix_identity {F : Type} [LinearOrderedField F] {Args : Type}
    (m : CMath F) (properties : Evaluated F) (pixelRatio : F) (tile : RenderTile F)
    (state : TransformState F) (args : Args)
    (hcos : m.cos 0 = 1) (hsin : m.sin 0 = 0)
    (hpitch : state.getPitch = 0) (hangle : state.getAngle = 0) :
    (makeValues m properties pixelRatio tile state args).u_antialiasingmatrix
        = matrix.identity ∧
      (makeValues m properties pixelRatio tile state args).u_antialiasingmatrix
        = { a0 := 1, a1 := 0, a2 := 0, a3 := 1 } := by
  constructor <;>
    simp [makeValues, matrix.rotate, matrix.scale, matrix.identity, hpitch, hangle, hcos, hsin]

/-- Witness for C8: pitch `0` and bearing `0` with the rational library. -/
theorem makeValues_antialiasingmatrix_identity_witness :
    sampleCMath.cos 0 = 1 ∧ sampleCMath.sin 0 = 0 ∧
      (makeValues sampleCMath sampleProperties 1 sampleTile
        (sampleState 0 0 600) ()).u_antialiasingmatrix = { a0 := 1, a1 := 0, a2 := 0, a3 := 1 } :=
  ⟨by norm_num [sampleCMath], by norm_num [sampleCMath],
    (makeValues_antialiasingmatrix_identity sampleCMath sampleProperties 1 sampleTile
      (sampleState 0 0 600) () (by norm_num [sampleCMath]) (by norm_num [sampleCMath])
      rfl rfl).2⟩

/-! ## C9: viewport height zero -/

/-- C9, counterexample: with a viewport of height `0`, pitch `1/2` and altitude `3/2`, the
top edge length is `0` and `u_extra` is the non-finite result of dividing by it, not `0`. -/
theorem makeValues_u_extra_height_zero_not_zero :
    sampleCMath.sqrt
        (((sampleState (1 / 2) 0 0).getSize.height : ℚ) ^ 2 / 4
          * (1 + (sampleState (1 / 2) 0 0).getAltitude ^ 2)) = 0 ∧
      (makeValues sampleCMath sampleProperties 1 sampleTile (sampleState (1 / 2) 0 0) ()).u_extra
        ≠ some 0 := by
  constructor
  · simp [sampleState, sampleCMath]
  · simp [makeValues, sampleState, sampleCMath, fdiv]

/-- C9, amended: when the viewport height is `0` (so that the top edge length is `sqrt 0 = 0`),
for every pitch and altitude the division by the top edge length is performed with divisor
`0`, and `u_extra` is its non-finite result. -/
theorem makeValues_u_extra_height_zero {F : Type} [LinearOrderedField F] {Args : Type}
    (m : CMath F) (properties : Evaluated F) (pixelRatio : F) (tile : RenderTile F)
    (state : TransformState F) (args : Args)
    (hsqrt : m.sqrt 0 = 0) (hheight : state.getSize.height = 0) :
    m.sqrt ((state.getSize.height : F) ^ 2 / 4 * (1 + state.getAltitude ^ 2)) = 0 ∧
      (makeValues m properties pixelRatio tile state args).u_extra = none := by
  have ht : m.sqrt ((state.getSize.height : F) ^ 2 / 4 * (1 + state.getAltitude ^ 2)) = 0 := by
    simp [hheight, hsqrt]
  refine ⟨ht, ?_⟩
  simp only [makeValues, ht, fdiv_zero, Option.map_none']

/-- Witness for C9, amended: a viewport of height `0` at pitch `1/4`. -/
theorem makeValues_u_extra_height_zero_witness :
    sampleCMath.sqrt 0 = 0 ∧ (sampleState (1 / 4) 0 0).getSize.height = 0 ∧
      (makeValues sampleCMath sampleProperties 2 sampleTile (sampleState (1 / 4) 0 0) ()).u_extra
        = none :=
  ⟨by simp [sampleCMath], rfl,
    (makeValues_u_extra_height_zero sampleCMath sampleProperties 2 sampleTile
      (sampleState (1 / 4) 0 0) () (by simp [sampleCMath]) rfl).2⟩

/-! ## C10: the SDF gamma when the narrower width is zero -/

/-- C10, counterexample: with `posA.width = 0` (so `min(widthA, widthB) = 0`), atlas width
`256` and pixel ratio `1`, the divisor is `0` and `u_sdfgamma` is not a finite value. -/
theorem sdf_u_sdfgamma_zero_width_not_finite :
    min ((samplePos 0).width * sampleProperties.LineDasharray.fromScale * 1)
        ((samplePos 20).width * sampleProperties.LineDasharray.toScale * 1) = 0 ∧
      (LineSDFProgram.uniformValues sampleCMath sampleProperties 1 sampleTile
        (sampleState 0 0 600) (samplePos 0) (samplePos 20) 1 256).args.u_sdfgamma = none ∧
      ¬ ∃ g : ℚ, (LineSDFProgram.uniformValues sampleCMath sampleProperties 1 sampleTile
        (sampleState 0 0 600) (samplePos 0) (samplePos 20) 1 256).args.u_sdfgamma = some g := by
  have h : (LineSDFProgram.uniformValues sampleCMath sampleProperties 1 sampleTile
      (sampleState 0 0 600) (samplePos 0) (samplePos 20) 1 256).args.u_sdfgamma = none := by
    simp [LineSDFProgram.uniformValues, makeValues, samplePos, sampleProperties, fdiv]
  refine ⟨by norm_num [samplePos, sampleProperties], h, ?_⟩
  rw [h]
  simp

/-- C10, amended: when `min(widthA, widthB)` is `0`, the division by
`min(widthA, widthB) * 256 * pixelRatio` is performed with divisor `0`, for every atlas width
and pixel ratio, and `u_sdfgamma` is its non-finite result. -/
theorem sdf_u_sdfgamma_zero_width {F : Type} [LinearOrderedField F]
    (m : CMath F) (properties : Evaluated F) (pixelRatio : F) (tile : RenderTile F)
    (state : TransformState F) (posA posB : LinePatternPos F) (dashLineWidth atlasWidth : F)
    (hmin : min (posA.width * properties.LineDasharray.fromScale * dashLineWidth)
        (posB.width * properties.LineDasharray.toScale * dashLineWidth) = 0) :
    min (posA.width * properties.LineDasharray.fromScale * dashLineWidth)
          (posB.width * properties.LineDasharray.toScale * dashLineWidth)
        * 256 * pixelRatio = 0 ∧
      (LineSDFProgram.uniformValues m properties pixelRatio tile state posA posB
        dashLineWidth atlasWidth).args.u_sdfgamma = none := by
  have hd : min (posA.width * properties.LineDasharray.fromScale * dashLineWidth)
        (posB.width * properties.LineDasharray.toScale * dashLineWidth)
      * 256 * pixelRatio = 0 := by
    rw [hmin]
    simp
  refine ⟨hd, ?_⟩
  simp only [LineSDFProgram.uniformValues, makeValues, hd, fdiv_zero, Option.map_none']

/-- Witness for C10, amended: `dashLineWidth = 0` makes both widths `0`. -/
theorem sdf_u_sdfgamma_zero_width_witness :
    min ((samplePos 10).width * sampleProperties.LineDasharray.fromScale * 0)
        ((samplePos 20).width * sampleProperties.LineDasharray.toScale * 0) = 0 ∧
      (LineSDFProgram.uniformValues sampleCMath sampleProperties 2 sampleTile
        (sampleState 0 0 600) (samplePos 10) (samplePos 20) 0 256).args.u_sdfgamma = none :=
  ⟨by norm_num,
    (sdf_u_sdfgamma_zero_width sampleCMath sampleProperties 2 sampleTile (sampleState 0 0 600)
      (samplePos 10) (samplePos 20) 0 256 (by norm_num)).2⟩

/-! ## C11: pixel ratio zero -/

/-- C11, counterexample: with `pixelRatio = 0` the solid builder returns a parameter set (it
has no way to reject) whose `u_blur` and `u_antialiasing` are not finite. -/
theorem uniformValues_pixelRatio_zero_not_finite :
    (LineProgram.uniformValues sampleCMath sampleProperties 0 sampleTile
        (sampleState 0 0 600)).u_blur = none ∧
      (LineProgram.uniformValues sampleCMath sampleProperties 0 sampleTile
        (sampleState 0 0 600)).u_antialiasing = none ∧
      ¬ ∃ b : ℚ, (LineProgram.uniformValues sampleCMath sampleProperties 0 sampleTile
        (sampleState 0 0 600)).u_blur = some b := by
  have h : (LineProgram.uniformValues sampleCMath sampleProperties 0 sampleTile
      (sampleState 0 0 600)).u_blur = none := by
    simp [LineProgram.uniformValues, makeValues, fdiv]
  refine ⟨h, by simp [LineProgram.uniformValues, makeValues, fdiv], ?_⟩
  rw [h]
  simp

/-- C11, amended: for `pixelRatio = 0` each of the three builders returns a parameter set,
the division `1 / pixelRatio` is performed with divisor `0`, and the fields `u_blur` and
`u_antialiasing` are its non-finite result. -/
theorem uniformValues_pixelRatio_zero {F : Type} [LinearOrderedField F]
    (m : CMath F) (properties : Evaluated F) (pixelRatio : F) (tile : RenderTile F)
    (state : TransformState F)
    (dashA dashB : LinePatternPos F) (dashLineWidth atlasWidth : F)
    (posA posB : SpriteAtlasPosition F) (hzero : pixelRatio = 0) :
    fdiv 1 pixelRatio = none ∧
    ((LineProgram.uniformValues m properties pixelRatio tile state).u_blur = none ∧
      (LineProgram.uniformValues m properties pixelRatio tile state).u_antialiasing = none) ∧
    ((LineSDFProgram.uniformValues m properties pixelRatio tile state dashA dashB
        dashLineWidth atlasWidth).u_blur = none ∧
      (LineSDFProgram.uniformValues m properties pixelRatio tile state dashA dashB
        dashLineWidth atlasWidth).u_antialiasing = none) ∧
    ((LinePatternProgram.uniformValues m properties pixelRatio tile state posA posB).u_blur
        = none ∧
      (LinePatternProgram.uniformValues m properties pixelRatio tile state posA
        posB).u_antialiasing = none) := by
  subst hzero
  refine ⟨fdiv_zero 1, ⟨?_, ?_⟩, ⟨?_, ?_⟩, ⟨?_, ?_⟩⟩ <;>
    simp [LineProgram.uniformValues, LineSDFProgram.uniformValues,
      LinePatternProgram.uniformValues, makeValues, fdiv_zero]

/-- Witness for C11, amended: pixel ratio `0` with the sample inputs. -/
theorem uniformValues_pixelRatio_zero_witness :
    (0 : ℚ) = 0 ∧
      (LineSDFProgram.uniformValues sampleCMath sampleProperties 0 sampleTile
        (sampleState 0 0 600) (samplePos 10) (samplePos 20) 1 256).u_blur = none ∧
      (LinePatternProgram.uniformValues sampleCMath sampleProperties 0 sampleTile
        (sampleState 0 0 600) (sampleSprite 32 8) (sampleSprite 64 8)).u_antialiasing = none :=
  ⟨rfl,
    (uniformValues_pixelRatio_zero sampleCMath sampleProperties 0 sampleTile
      (sampleState 0 0 600) (samplePos 10) (samplePos 20) 1 256 (sampleSprite 32 8)
      (sampleSprite 64 8) rfl).2.2.1.1,
    (uniformValues_pixelRatio_zero sampleCMath sampleProperties 0 sampleTile
      (sampleState 0 0 600) (samplePos 10) (samplePos 20) 1 256 (sampleSprite 32 8)
      (sampleSprite 64 8) rfl).2.2.2.2⟩

/-! ## C12: the perspective factor -/

/-- C12: for every viewport height, altitude and pitch, `u_extra` is
`(topEdgeLength + x) / topEdgeLength - 1` with
`topEdgeLength = sqrt(height^2 / 4 * (1 + altitude^2))` and `x = height / 2 * tan(pitch)`
(a finite number with that value whenever `topEdgeLength` is not zero). -/
theorem makeValues_u_extra_formula {F : Type} [LinearOrderedField F] {Args : Type}
    (m : CMath F) (properties : Evaluated F) (pixelRatio : F) (tile : RenderTile F)
    (state : TransformState F) (args : Args) :
    (makeValues m properties pixelRatio tile state args).u_extra
      = (fdiv
          (m.sqrt ((state.getSize.height : F) ^ 2 / 4 * (1 + state.getAltitude ^ 2))
            + (state.getSize.height : F) / 2 * m.tan state.getPitch)
          (m.sqrt ((state.getSize.height : F) ^ 2 / 4 * (1 + state.getAltitude ^ 2)))).map
          (fun q => q - 1) ∧
    (m.sqrt ((state.getSize.height : F) ^ 2 / 4 * (1 + state.getAltitude ^ 2)) ≠ 0 →
      (makeValues m properties pixelRatio tile state args).u_extra
        = some ((m.sqrt ((state.getSize.height : F) ^ 2 / 4 * (1 + state.getAltitude ^ 2))
              + (state.getSize.height : F) / 2 * m.tan state.getPitch)
            / m.sqrt ((state.getSize.height : F) ^ 2 / 4 * (1 + state.getAltitude ^ 2))
            - 1)) := by
  refine ⟨rfl, ?_⟩
  intro h
  simp only [makeValues, fdiv_ne_zero _ h, Option.map_some']

/-- Witness for C12: height `8`, altitude `3/4` and pitch `1` give a top edge length of `5`
and `x = 4 * (1 + 1/3 + 2/15)`, so `u_extra = 88/75`. -/
theorem makeValues_u_extra_formula_witness :
    sampleCMath.sqrt ((((stateOf 1 0 (3 / 4) 8 : TransformState ℚ).getSize.height : ℕ) : ℚ) ^ 2 / 4
        * (1 + (stateOf 1 0 (3 / 4) 8 : TransformState ℚ).getAltitude ^ 2)) = 5 ∧
      (makeValues sampleCMath sampleProperties 1 sampleTile (stateOf 1 0 (3 / 4) 8) ()).u_extra
        = some (88 / 75) := by
  have hs : sampleCMath.sqrt
      ((((stateOf 1 0 (3 / 4) 8 : TransformState ℚ).getSize.height : ℕ) : ℚ) ^ 2 / 4
        * (1 + (stateOf 1 0 (3 / 4) 8 : TransformState ℚ).getAltitude ^ 2)) = 5 := by
    have h25 : ((8 : ℕ) : ℚ) ^ 2 / 4 * (1 + (3 / 4 : ℚ) ^ 2) = 25 := by norm_num
    have hsq : Nat.sqrt 25 = 5 := by
      symm
      rw [Nat.eq_sqrt]
      constructor <;> norm_num
    have hnat : Int.toNat 25 = 25 := rfl
    simp only [stateOf, h25, sampleCMath]
    norm_num [hnat, hsq]
  refine ⟨hs, ?_⟩
  have h := (makeValues_u_extra_formula sampleCMath sampleProperties 1 sampleTile
    (stateOf 1 0 (3 / 4) 8) ()).2 (by rw [hs]; norm_num)
  rw [h, hs]
  norm_num [stateOf, sampleCMath]

/-! ## C13: the tile ratio -/

/-- C13: for every tile and transform, `u_ratio` is `1 / pixelsToTileUnits(1.0, zoom)` at the
continuous zoom of the transform (a finite number with that value whenever the conversion is
not zero), for all three builders, and it does not change with the integer zoom. -/
theorem uniformValues_u_ratio {F : Type} [LinearOrderedField F]
    (m : CMath F) (properties : Evaluated F) (pixelRatio : F) (tile : RenderTile F)
    (state : TransformState F)
    (dashA dashB : LinePatternPos F) (dashLineWidth atlasWidth : F)
    (posA posB : SpriteAtlasPosition F) :
    ((LineProgram.uniformValues m properties pixelRatio tile state).u_ratio
        = fdiv 1 (tile.pixelsToTileUnits 1 state.getZoom) ∧
      (LineSDFProgram.uniformValues m properties pixelRatio tile state dashA dashB
          dashLineWidth atlasWidth).u_ratio
        = fdiv 1 (tile.pixelsToTileUnits 1 state.getZoom) ∧
      (LinePatternProgram.uniformValues m properties pixelRatio tile state posA posB).u_ratio
        = fdiv 1 (tile.pixelsToTileUnits 1 state.getZoom)) ∧
    (tile.pixelsToTileUnits 1 state.getZoom ≠ 0 →
      (LineProgram.uniformValues m properties pixelRatio tile state).u_ratio
        = some (1 / tile.pixelsToTileUnits 1 state.getZoom) ∧
      (LineSDFProgram.uniformValues m properties pixelRatio tile state dashA dashB
          dashLineWidth atlasWidth).u_ratio
        = some (1 / tile.pixelsToTileUnits 1 state.getZoom) ∧
      (LinePatternProgram.uniformValues m properties pixelRatio tile state posA posB).u_ratio
        = some (1 / tile.pixelsToTileUnits 1 state.getZoom)) ∧
    (∀ integerZoom : Int,
      (LineProgram.uniformValues m properties pixelRatio tile
          { state with getIntegerZoom := integerZoom }).u_ratio
        = (LineProgram.uniformValues m properties pixelRatio tile state).u_ratio ∧
      (LineSDFProgram.uniformValues m properties pixelRatio tile
          { state with getIntegerZoom := integerZoom } dashA dashB dashLineWidth
          atlasWidth).u_ratio
        = (LineSDFProgram.uniformValues m properties pixelRatio tile state dashA dashB
            dashLineWidth atlasWidth).u_ratio ∧
      (LinePatternProgram.uniformValues m properties pixelRatio tile
          { state with getIntegerZoom := integerZoom } posA posB).u_ratio
        = (LinePatternProgram.uniformValues m properties pixelRatio tile state posA
            posB).u_ratio) := by
  refine ⟨⟨rfl, rfl, rfl⟩, ?_, fun _ => ⟨rfl, rfl, rfl⟩⟩
  intro h
  refine ⟨?_, ?_, ?_⟩ <;>
    simp [LineProgram.uniformValues, LineSDFProgram.uniformValues,
      LinePatternProgram.uniformValues, makeValues, fdiv_ne_zero _ h]

/-- Witness for C13: on a tile whose conversion is `v * (zoom + 1)`, continuous zoom `5/2`
gives `u_ratio = 2/7`, not the `1/3` of integer zoom `2`. -/
theorem uniformValues_u_ratio_witness :
    (zoomTile : RenderTile ℚ).pixelsToTileUnits 1 (stateOf 0 0 (3 / 2) 600).getZoom ≠ 0 ∧
      (LineProgram.uniformValues sampleCMath sampleProperties 1 zoomTile
        (stateOf 0 0 (3 / 2) 600)).u_ratio = some (2 / 7) ∧
      (LineSDFProgram.uniformValues sampleCMath sampleProperties 1 zoomTile
        (stateOf 0 0 (3 / 2) 600) (samplePos 10) (samplePos 20) 1 256).u_ratio = some (2 / 7) ∧
      (LinePatternProgram.uniformValues sampleCMath sampleProperties 1 zoomTile
        (stateOf 0 0 (3 / 2) 600) (sampleSprite 32 8) (sampleSprite 64 8)).u_ratio
        = some (2 / 7) := by
  have hne : (zoomTile : RenderTile ℚ).pixelsToTileUnits 1 (stateOf 0 0 (3 / 2) 600).getZoom
      ≠ 0 := by
    norm_num [zoomTile, stateOf]
  have h := (uniformValues_u_ratio sampleCMath sampleProperties 1 zoomTile
    (stateOf 0 0 (3 / 2) 600) (samplePos 10) (samplePos 20) 1 256 (sampleSprite 32 8)
    (sampleSprite 64 8)).2.1 hne
  have hv : (1 : ℚ) / (zoomTile : RenderTile ℚ).pixelsToTileUnits 1
      (stateOf 0 0 (3 / 2) 600).getZoom = 2 / 7 := by
    norm_num [zoomTile, stateOf]
  rw [hv] at h
  exact ⟨hne, h⟩

/-! ## C14: the fields of the dashed builder -/

/-- C14: for every input of `LineSDFProgram::uniformValues`, the fields after the ten base
fields are, in this order, color, patternscale_a, patternscale_b, tex_y_a, tex_y_b, mix,
sdfgamma, image; `u_color` is the evaluated line color, `u_tex_y_a = posA.y`,
`u_tex_y_b = posB.y`, `u_mix` is the mix factor `t` of the dash array, and `u_image = 0`. -/
theorem sdf_uniforms_order {F : Type} [LinearOrderedField F]
    (m : CMath F) (properties : Evaluated F) (pixelRatio : F) (tile : RenderTile F)
    (state : TransformState F) (posA posB : LinePatternPos F) (dashLineWidth atlasWidth : F) :
    Values.uniforms LineSDFArgs.uniforms (LineSDFProgram.uniformValues m properties pixelRatio tile state posA posB
        dashLineWidth atlasWidth)
      = Values.baseUniforms (LineSDFProgram.uniformValues m properties pixelRatio tile state posA posB
        dashLineWidth atlasWidth)
        ++ [("u_color", UniformValue.color properties.LineColor),
            ("u_patternscale_a", UniformValue.vector2 (LineSDFProgram.uniformValues m properties pixelRatio tile state posA posB
        dashLineWidth atlasWidth).args.u_patternscale_a),
            ("u_patternscale_b", UniformValue.vector2 (LineSDFProgram.uniformValues m properties pixelRatio tile state posA posB
        dashLineWidth atlasWidth).args.u_patternscale_b),
            ("u_tex_y_a", UniformValue.scalar (some posA.y)),
            ("u_tex_y_b", UniformValue.scalar (some posB.y)),
            ("u_mix", UniformValue.scalar (some properties.LineDasharray.t)),
            ("u_sdfgamma", UniformValue.scalar (LineSDFProgram.uniformValues m properties pixelRatio tile state posA posB
        dashLineWidth atlasWidth).args.u_sdfgamma),
            ("u_image", UniformValue.integer 0)] ∧
    (Values.uniforms LineSDFArgs.uniforms (LineSDFProgram.uniformValues m properties pixelRatio tile state posA posB
        dashLineWidth atlasWidth)).map Prod.fst
      = ["u_matrix", "u_opacity", "u_linewidth", "u_gapwidth", "u_blur", "u_offset",
          "u_antialiasing", "u_antialiasingmatrix", "u_ratio", "u_extra",
          "u_color", "u_patternscale_a", "u_patternscale_b", "u_tex_y_a", "u_tex_y_b",
          "u_mix", "u_sdfgamma", "u_image"] ∧
    ((LineSDFProgram.uniformValues m properties pixelRatio tile state posA posB
        dashLineWidth atlasWidth).args.u_color = properties.LineColor ∧
      (LineSDFProgram.uniformValues m properties pixelRatio tile state posA posB
        dashLineWidth atlasWidth).args.u_tex_y_a = posA.y ∧
      (LineSDFProgram.uniformValues m properties pixelRatio tile state posA posB
        dashLineWidth atlasWidth).args.u_tex_y_b = posB.y ∧
      (LineSDFProgram.uniformValues m properties pixelRatio tile state posA posB
        dashLineWidth atlasWidth).args.u_mix = properties.LineDasharray.t ∧
      (LineSDFProgram.uniformValues m properties pixelRatio tile state posA posB
        dashLineWidth atlasWidth).args.u_image = 0) := by
  exact ⟨rfl, rfl, rfl, rfl, rfl, rfl, rfl⟩

/-! ## C15: the fields of the pattern builder -/

/-- C15: for every input of `LinePatternProgram::uniformValues`, the fields after the ten
base fields are, in this order, tl_a, br_a, tl_b, br_b, size_a, size_b, fade, image; the four
corners are `posA.tl`, `posA.br`, `posB.tl`, `posB.br` unchanged, `u_fade` is the mix factor
`t` of the pattern, `u_image = 0`, and no field is named `u_color`. -/
theorem pattern_uniforms_order {F : Type} [LinearOrderedField F]
    (m : CMath F) (properties : Evaluated F) (pixelRatio : F) (tile : RenderTile F)
    (state : TransformState F) (posA posB : SpriteAtlasPosition F) :
    Values.uniforms LinePatternArgs.uniforms (LinePatternProgram.uniformValues m properties pixelRatio tile state posA posB)
      = Values.baseUniforms (LinePatternProgram.uniformValues m properties pixelRatio tile state posA posB)
        ++ [("u_pattern_tl_a", UniformValue.vector2 (some posA.tl.1, some posA.tl.2)),
            ("u_pattern_br_a", UniformValue.vector2 (some posA.br.1, some posA.br.2)),
            ("u_pattern_tl_b", UniformValue.vector2 (some posB.tl.1, some posB.tl.2)),
            ("u_pattern_br_b", UniformValue.vector2 (some posB.br.1, some posB.br.2)),
            ("u_pattern_size_a", UniformValue.vector2
              (some (LinePatternProgram.uniformValues m properties pixelRatio tile state posA posB).args.u_pattern_size_a.1,
                some (LinePatternProgram.uniformValues m properties pixelRatio tile state posA posB).args.u_pattern_size_a.2)),
            ("u_pattern_size_b", UniformValue.vector2
              (some (LinePatternProgram.uniformValues m properties pixelRatio tile state posA posB).args.u_pattern_size_b.1,
                some (LinePatternProgram.uniformValues m properties pixelRatio tile state posA posB).args.u_pattern_size_b.2)),
            ("u_fade", UniformValue.scalar (some properties.LinePattern.t)),
            ("u_image", UniformValue.integer 0)] ∧
    (Values.uniforms LinePatternArgs.uniforms (LinePatternProgram.uniformValues m properties pixelRatio tile state posA posB)).map Prod.fst
      = ["u_matrix", "u_opacity", "u_linewidth", "u_gapwidth", "u_blur", "u_offset",
          "u_antialiasing", "u_antialiasingmatrix", "u_ratio", "u_extra",
          "u_pattern_tl_a", "u_pattern_br_a", "u_pattern_tl_b", "u_pattern_br_b",
          "u_pattern_size_a", "u_pattern_size_b", "u_fade", "u_image"] ∧
    ((LinePatternProgram.uniformValues m properties pixelRatio tile state posA posB).args.u_pattern_tl_a = posA.tl ∧
      (LinePatternProgram.uniformValues m properties pixelRatio tile state posA posB).args.u_pattern_br_a = posA.br ∧
      (LinePatternProgram.uniformValues m properties pixelRatio tile state posA posB).args.u_pattern_tl_b = posB.tl ∧
      (LinePatternProgram.uniformValues m properties pixelRatio tile state posA posB).args.u_pattern_br_b = posB.br ∧
      (LinePatternProgram.uniformValues m properties pixelRatio tile state posA posB).args.u_fade = properties.LinePattern.t ∧
      (LinePatternProgram.uniformValues m properties pixelRatio tile state posA posB).args.u_image = 0) ∧
    "u_color" ∉ (Values.uniforms LinePatternArgs.uniforms (LinePatternProgram.uniformValues m properties pixelRatio tile state posA posB)).map Prod.fst := by
  have hnames : (Values.uniforms LinePatternArgs.uniforms (LinePatternProgram.uniformValues m properties pixelRatio tile state posA posB)).map Prod.fst
      = ["u_matrix", "u_opacity", "u_linewidth", "u_gapwidth", "u_blur", "u_offset",
          "u_antialiasing", "u_antialiasingmatrix", "u_ratio", "u_extra",
          "u_pattern_tl_a", "u_pattern_br_a", "u_pattern_tl_b", "u_pattern_br_b",
          "u_pattern_size_a", "u_pattern_size_b", "u_fade", "u_image"] := rfl
  refine ⟨rfl, hnames, ⟨rfl, rfl, rfl, rfl, rfl, rfl⟩, ?_⟩
  rw [hnames]
  decide

/-! ## C16: scale first, then rotate -/

/-- C16: for every pitch and bearing angle, `u_antialiasingmatrix` is the identity with its Y
axis scaled by `cos(pitch)` (X axis by `1`) and then rotated by the bearing angle, that is
`(cos a, cos(pitch) * sin a, -sin a, cos(pitch) * cos a)`; it is not the matrix of the
reverse order (rotate, then scale) whenever `sin a` is not `0` and `cos(pitch)` is not `1`. -/
theorem makeValues_antialiasingmatrix_order {F : Type} [LinearOrderedField F] {Args : Type}
    (m : CMath F) (properties : Evaluated F) (pixelRatio : F) (tile : RenderTile F)
    (state : TransformState F) (args : Args) :
    (makeValues m properties pixelRatio tile state args).u_antialiasingmatrix
      = matrix.rotate m (matrix.scale matrix.identity 1 (m.cos state.getPitch))
          state.getAngle ∧
    (makeValues m properties pixelRatio tile state args).u_antialiasingmatrix
      = { a0 := m.cos state.getAngle
          a1 := m.cos state.getPitch * m.sin state.getAngle
          a2 := -m.sin state.getAngle
          a3 := m.cos state.getPitch * m.cos state.getAngle } ∧
    (m.sin state.getAngle ≠ 0 → m.cos state.getPitch ≠ 1 →
      (makeValues m properties pixelRatio tile state args).u_antialiasingmatrix
        ≠ matrix.scale (matrix.rotate m matrix.identity state.getAngle) 1
            (m.cos state.getPitch)) := by
  refine ⟨rfl, ?_, ?_⟩
  · simp [makeValues, matrix.rotate, matrix.scale, matrix.identity]
  · intro hs hc hEq
    have h1 := congrArg mat2.a1 hEq
    simp only [makeValues, matrix.rotate, matrix.scale, matrix.identity, one_mul, mul_one,
      zero_mul, zero_add, add_zero, mul_zero] at h1
    have h2 : (m.cos state.getPitch - 1) * m.sin state.getAngle = 0 := by
      rw [sub_mul, one_mul, h1, sub_self]
    rcases mul_eq_zero.mp h2 with h | h
    · exact hc (sub_eq_zero.mp h)
    · exact hs h

/-- Witness for C16: pitch `1/2` and bearing `1/2` with the rational library. -/
theorem makeValues_antialiasingmatrix_order_witness :
    sampleCMath.sin (sampleState (1 / 2) (1 / 2) 600).getAngle ≠ 0 ∧
      sampleCMath.cos (sampleState (1 / 2) (1 / 2) 600).getPitch ≠ 1 ∧
      (makeValues sampleCMath sampleProperties 1 sampleTile
          (sampleState (1 / 2) (1 / 2) 600) ()).u_antialiasingmatrix
        ≠ matrix.scale
            (matrix.rotate sampleCMath matrix.identity (sampleState (1 / 2) (1 / 2) 600).getAngle)
            1 (sampleCMath.cos (sampleState (1 / 2) (1 / 2) 600).getPitch) :=
  ⟨by norm_num [sampleCMath, sampleState], by norm_num [sampleCMath, sampleState],
    (makeValues_antialiasingmatrix_order sampleCMath sampleProperties 1 sampleTile
      (sampleState (1 / 2) (1 / 2) 600) ()).2.2
      (by norm_num [sampleCMath, sampleState]) (by norm_num [sampleCMath, sampleState])⟩

/-! ## C17: the perspective factor and its closed form -/

lemma real_topedgelength (h a : ℝ) (hh : 0 < h) :
    Real.sqrt (h ^ 2 / 4 * (1 + a ^ 2)) = h / 2 * Real.sqrt (1 + a ^ 2) := by
  have hsq : h ^ 2 / 4 = (h / 2) ^ 2 := by ring
  have hhalf : (0 : ℝ) ≤ h / 2 := by positivity
  rw [hsq, Real.sqrt_mul (sq_nonneg _), Real.sqrt_sq hhalf]

lemma real_u_extra {Args : Type} (properties : Evaluated ℝ) (pixelRatio : ℝ)
    (tile : RenderTile ℝ) (state : TransformState ℝ) (args : Args)
    (hheight : 0 < state.getSize.height) :
    (makeValues { sqrt := Real.sqrt, cos := Real.cos, sin := Real.sin, tan := Real.tan }
        properties pixelRatio tile state args).u_extra
      = some (Real.tan state.getPitch / Real.sqrt (1 + state.getAltitude ^ 2)) := by
  have hh : (0 : ℝ) < (state.getSize.height : ℝ) := by exact_mod_cast hheight
  have hs : 0 < Real.sqrt (1 + state.getAltitude ^ 2) := Real.sqrt_pos.mpr (by positivity)
  have ht : (state.getSize.height : ℝ) / 2 * Real.sqrt (1 + state.getAltitude ^ 2) ≠ 0 :=
    ne_of_gt (by positivity)
  simp only [makeValues, real_topedgelength _ _ hh, fdiv_ne_zero _ ht, Option.map_some',
    Option.some.injEq]
  field_simp
  ring

lemma real_u_extra_float (state : TransformState ℝ) (hheight : 0 < state.getSize.height) :
    makeValues_u_extra_float some
        { sqrt := Real.sqrt, cos := Real.cos, sin := Real.sin, tan := Real.tan } state
      = some (Real.tan state.getPitch / Real.sqrt (1 + state.getAltitude ^ 2)) := by
  rw [makeValues_u_extra_float_exact _ plainProperties 1 zoomTile state ()]
  exact real_u_extra plainProperties 1 zoomTile state () hheight

/-- C17, counterexample: in binary32, at pitch `2 ^ -24` and altitude `3/4`, `u_extra` is `0`
for a viewport `104` pixels high and `2 ^ -23` for one `600` pixels high.  So it depends on
the viewport height, and at height `104` it is not `tan(pitch) / sqrt(1 + altitude^2)`, which
is not `0`. -/
theorem makeValues_u_extra_float_depends_on_height :
    makeValues_u_extra_float binary32 sampleCMath (stateOf (1 / 2 ^ 24) 0 (3 / 4) 104)
        = some 0 ∧
      makeValues_u_extra_float binary32 sampleCMath (stateOf (1 / 2 ^ 24) 0 (3 / 4) 600)
        = some (1 / 2 ^ 23) ∧
      makeValues_u_extra_float binary32 sampleCMath (stateOf (1 / 2 ^ 24) 0 (3 / 4) 104)
        ≠ makeValues_u_extra_float binary32 sampleCMath (stateOf (1 / 2 ^ 24) 0 (3 / 4) 600) ∧
      sampleCMath.tan (1 / 2 ^ 24) / sampleCMath.sqrt (1 + (3 / 4) ^ 2) ≠ 0 := by
  refine ⟨makeValues_u_extra_float_at_104, makeValues_u_extra_float_at_600, ?_, ?_⟩
  · rw [makeValues_u_extra_float_at_104, makeValues_u_extra_float_at_600]
    norm_num
  · exact div_ne_zero (by norm_num [sampleCMath])
      (sampleCMath_sqrt_ne_zero _ (by norm_num))

/-- C17, amended: in `float` arithmetic, for every viewport height, every altitude and every
pitch at which the tangent is non-negative (as it is for `0 <= pitch < pi / 2`), `u_extra` is
non-negative whenever it is finite; the conversion `fl` to `float` is any monotone one that
keeps `0`, `1` and every value it returns unchanged.  Evaluated without rounding over the
real numbers, for every viewport height `> 0`, every altitude and every pitch, the same
expression is `tan(pitch) / sqrt(1 + altitude^2)`, hence the same for every other viewport
height `> 0`. -/
theorem makeValues_u_extra_float_nonneg {F : Type} [LinearOrderedField F]
    (fl : F → Option F) (m : CMath F) (state : TransformState F)
    (hzero : fl 0 = some 0) (hone : fl 1 = some 1)
    (hidem : ∀ a b : F, fl a = some b → fl b = some b)
    (hmono : ∀ a b a' b' : F, a ≤ b → fl a = some a' → fl b = some b' → a' ≤ b')
    (hsqrt : ∀ y : F, 0 ≤ m.sqrt y) (htan : 0 ≤ m.tan state.getPitch)
    (real : TransformState ℝ) (hheight : 0 < real.getSize.height) :
    (∀ e : F, makeValues_u_extra_float fl m state = some e → 0 ≤ e) ∧
    makeValues_u_extra_float some
        { sqrt := Real.sqrt, cos := Real.cos, sin := Real.sin, tan := Real.tan } real
      = some (Real.tan real.getPitch / Real.sqrt (1 + real.getAltitude ^ 2)) ∧
    (∀ height : Nat, 0 < height →
      makeValues_u_extra_float some
          { sqrt := Real.sqrt, cos := Real.cos, sin := Real.sin, tan := Real.tan }
          { real with getSize := { width := real.getSize.width, height := height } }
        = makeValues_u_extra_float some
            { sqrt := Real.sqrt, cos := Real.cos, sin := Real.sin, tan := Real.tan } real) := by
  refine ⟨?_, real_u_extra_float real hheight, ?_⟩
  · intro e he
    obtain ⟨t, hf, half, x, sum, r, ht, hhf, hhalf, hx, hsum, hne, hr, hfin⟩ :=
      makeValues_u_extra_float_eq_some he
    have ht0 : 0 ≤ t := hmono _ _ _ _ (hsqrt _) hzero ht
    have htpos : 0 < t := lt_of_le_of_ne ht0 (Ne.symm hne)
    have hhf0 : 0 ≤ hf := hmono _ _ _ _ (Nat.cast_nonneg _) hzero hhf
    have hhalf0 : 0 ≤ half := hmono _ _ _ _ (by positivity) hzero hhalf
    have hx0 : 0 ≤ x := hmono _ _ _ _ (mul_nonneg hhalf0 htan) hzero hx
    have hsum0 : t ≤ sum := hmono _ _ _ _ (by linarith) (hidem _ _ ht) hsum
    have hq1 : 1 ≤ sum / t := by
      rw [le_div_iff₀ htpos]
      linarith
    have hr1 : 1 ≤ r := hmono _ _ _ _ hq1 hone hr
    exact hmono _ _ _ _ (by linarith) hzero hfin
  · intro height hpos
    rw [real_u_extra_float real hheight, real_u_extra_float _ hpos]

/-- Witness for C17, amended: binary32 at pitch `2 ^ -24`, altitude `3/4` and a viewport `600`
pixels high, where `u_extra = 2 ^ -23`; over the reals, pitch `pi / 4` and altitude `3/2`. -/
theorem makeValues_u_extra_float_nonneg_witness :
    binary32 0 = some 0 ∧ binary32 1 = some 1 ∧
      (∀ a b : ℚ, binary32 a = some b → binary32 b = some b) ∧
      (∀ a b a' b' : ℚ, a ≤ b → binary32 a = some a' → binary32 b = some b' → a' ≤ b') ∧
      (∀ y : ℚ, 0 ≤ sampleCMath.sqrt y) ∧
      0 ≤ sampleCMath.tan (stateOf (1 / 2 ^ 24) 0 (3 / 4) 600 : TransformState ℚ).getPitch ∧
      0 < (stateOf (Real.pi / 4) 0 (3 / 2) 600 : TransformState ℝ).getSize.height ∧
      makeValues_u_extra_float binary32 sampleCMath (stateOf (1 / 2 ^ 24) 0 (3 / 4) 600)
        = some (1 / 2 ^ 23) ∧
      (0 : ℚ) ≤ 1 / 2 ^ 23 ∧
      makeValues_u_extra_float some
          { sqrt := Real.sqrt, cos := Real.cos, sin := Real.sin, tan := Real.tan }
          (stateOf (Real.pi / 4) 0 (3 / 2) 600)
        = some (Real.tan (stateOf (Real.pi / 4) 0 (3 / 2) 600 : TransformState ℝ).getPitch
            / Real.sqrt (1 + (stateOf (Real.pi / 4) 0 (3 / 2) 600 : TransformState ℝ).getAltitude
              ^ 2)) := by
  have htan :
      0 ≤ sampleCMath.tan (stateOf (1 / 2 ^ 24) 0 (3 / 4) 600 : TransformState ℚ).getPitch := by
    norm_num [sampleCMath, stateOf]
  have hpos : 0 < (stateOf (Real.pi / 4) 0 (3 / 2) 600 : TransformState ℝ).getSize.height := by
    simp [stateOf]
  have h := makeValues_u_extra_float_nonneg binary32 sampleCMath
    (stateOf (1 / 2 ^ 24) 0 (3 / 4) 600) binary32_zero binary32_one
    (fun a b h => binary32_idem h) (fun a b a' b' h ha hb => binary32_mono h ha hb)
    sampleCMath_sqrt_nonneg htan (stateOf (Real.pi / 4) 0 (3 / 2) 600) hpos
  exact ⟨binary32_zero, binary32_one, fun a b h => binary32_idem h,
    fun a b a' b' h ha hb => binary32_mono h ha hb, sampleCMath_sqrt_nonneg, htan, hpos,
    makeValues_u_extra_float_at_600, h.1 _ makeValues_u_extra_float_at_600, h.2.1⟩

/-! ## C18: the determinant of the antialiasing matrix -/

/-- C18: over the real numbers, for every pitch and every bearing angle the determinant of
`u_antialiasingmatrix` is `cos(pitch)`; at pitch `0` the matrix is the rotation
`(cos a, sin a, -sin a, cos a)` for every angle `a`, with determinant `1` and orthonormal
columns. -/
theorem makeValues_antialiasingmatrix_det {Args : Type} (properties : Evaluated ℝ)
    (pixelRatio : ℝ) (tile : RenderTile ℝ) (state : TransformState ℝ) (args : Args) :
    mat2.det (makeValues { sqrt := Real.sqrt, cos := Real.cos, sin := Real.sin, tan := Real.tan }
        properties pixelRatio tile state args).u_antialiasingmatrix
      = Real.cos state.getPitch ∧
    (makeValues { sqrt := Real.sqrt, cos := Real.cos, sin := Real.sin, tan := Real.tan }
        properties pixelRatio tile { state with getPitch := 0 } args).u_antialiasingmatrix
      = { a0 := Real.cos state.getAngle
          a1 := Real.sin state.getAngle
          a2 := -Real.sin state.getAngle
          a3 := Real.cos state.getAngle } ∧
    mat2.det (makeValues { sqrt := Real.sqrt, cos := Real.cos, sin := Real.sin, tan := Real.tan }
        properties pixelRatio tile { state with getPitch := 0 } args).u_antialiasingmatrix
      = 1 ∧
    ((makeValues { sqrt := Real.sqrt, cos := Real.cos, sin := Real.sin, tan := Real.tan }
          properties pixelRatio tile { state with getPitch := 0 } args).u_antialiasingmatrix.a0 ^ 2
        + (makeValues { sqrt := Real.sqrt, cos := Real.cos, sin := Real.sin, tan := Real.tan }
          properties pixelRatio tile { state with getPitch := 0 } args).u_antialiasingmatrix.a1 ^ 2
        = 1 ∧
      (makeValues { sqrt := Real.sqrt, cos := Real.cos, sin := Real.sin, tan := Real.tan }
          properties pixelRatio tile { state with getPitch := 0 } args).u_antialiasingmatrix.a2 ^ 2
        + (makeValues { sqrt := Real.sqrt, cos := Real.cos, sin := Real.sin, tan := Real.tan }
          properties pixelRatio tile { state with getPitch := 0 } args).u_antialiasingmatrix.a3 ^ 2
        = 1 ∧
      (makeValues { sqrt := Real.sqrt, cos := Real.cos, sin := Real.sin, tan := Real.tan }
          properties pixelRatio tile { state with getPitch := 0 } args).u_antialiasingmatrix.a0
        * (makeValues { sqrt := Real.sqrt, cos := Real.cos, sin := Real.sin, tan := Real.tan }
          properties pixelRatio tile { state with getPitch := 0 } args).u_antialiasingmatrix.a2
        + (makeValues { sqrt := Real.sqrt, cos := Real.cos, sin := Real.sin, tan := Real.tan }
          properties pixelRatio tile { state with getPitch := 0 } args).u_antialiasingmatrix.a1
        * (makeValues { sqrt := Real.sqrt, cos := Real.cos, sin := Real.sin, tan := Real.tan }
          properties pixelRatio tile { state with getPitch := 0 } args).u_antialiasingmatrix.a3
        = 0) := by
  have hp := Real.sin_sq_add_cos_sq state.getAngle
  refine ⟨?_, ?_, ?_, ?_, ?_, ?_⟩
  · simp only [makeValues, matrix.rotate, matrix.scale, matrix.identity, mat2.det]
    linear_combination Real.cos state.getPitch * hp
  · simp [makeValues, matrix.rotate, matrix.scale, matrix.identity]
  · simp only [makeValues, matrix.rotate, matrix.scale, matrix.identity, mat2.det,
      Real.cos_zero]
    linear_combination hp
  · simp only [makeValues, matrix.rotate, matrix.scale, matrix.identity, Real.cos_zero]
    linear_combination hp
  · simp only [makeValues, matrix.rotate, matrix.scale, matrix.identity, Real.cos_zero]
    linear_combination hp
  · simp only [makeValues, matrix.rotate, matrix.scale, matrix.identity, Real.cos_zero]
    ring

/-! ## C19: the SDF gamma is the larger per-entry gamma -/

/-- C19: for every `atlasWidth > 0`, `pixelRatio > 0` and `widthA, widthB > 0`, `u_sdfgamma`
is the larger of `atlasWidth / (widthA * 256 * pixelRatio) / 2` and
`atlasWidth / (widthB * 256 * pixelRatio) / 2`, and it is unchanged when entry A with
`fromScale` and entry B with `toScale` are swapped. -/
theorem sdf_u_sdfgamma_max {F : Type} [LinearOrderedField F]
    (m : CMath F) (properties : Evaluated F) (pixelRatio : F) (tile : RenderTile F)
    (state : TransformState F) (posA posB : LinePatternPos F) (dashLineWidth atlasWidth : F)
    (hatlas : 0 < atlasWidth) (hratio : 0 < pixelRatio)
    (hA : 0 < posA.width * properties.LineDasharray.fromScale * dashLineWidth)
    (hB : 0 < posB.width * properties.LineDasharray.toScale * dashLineWidth) :
    (LineSDFProgram.uniformValues m properties pixelRatio tile state posA posB
        dashLineWidth atlasWidth).args.u_sdfgamma
      = some (max
          (atlasWidth / (posA.width * properties.LineDasharray.fromScale * dashLineWidth
            * 256 * pixelRatio) / 2)
          (atlasWidth / (posB.width * properties.LineDasharray.toScale * dashLineWidth
            * 256 * pixelRatio) / 2)) ∧
    (LineSDFProgram.uniformValues m
        { properties with
          LineDasharray :=
            { properties.LineDasharray with
              fromScale := properties.LineDasharray.toScale
              toScale := properties.LineDasharray.fromScale } }
        pixelRatio tile state posB posA dashLineWidth atlasWidth).args.u_sdfgamma
      = (LineSDFProgram.uniformValues m properties pixelRatio tile state posA posB
          dashLineWidth atlasWidth).args.u_sdfgamma := by
  constructor
  · have hdA : 0 < posA.width * properties.LineDasharray.fromScale * dashLineWidth
        * 256 * pixelRatio := by positivity
    have hdB : 0 < posB.width * properties.LineDasharray.toScale * dashLineWidth
        * 256 * pixelRatio := by positivity
    rcases le_total (posA.width * properties.LineDasharray.fromScale * dashLineWidth)
        (posB.width * properties.LineDasharray.toScale * dashLineWidth) with hle | hle
    · have hmono : atlasWidth / (posB.width * properties.LineDasharray.toScale * dashLineWidth
            * 256 * pixelRatio) / 2
          ≤ atlasWidth / (posA.width * properties.LineDasharray.fromScale * dashLineWidth
            * 256 * pixelRatio) / 2 := by
        have hd : posA.width * properties.LineDasharray.fromScale * dashLineWidth
              * 256 * pixelRatio
            ≤ posB.width * properties.LineDasharray.toScale * dashLineWidth
              * 256 * pixelRatio := by
          have := mul_le_mul_of_nonneg_right hle (by positivity : (0 : F) ≤ 256 * pixelRatio)
          simpa [mul_assoc] using this
        have := (div_le_div_iff_of_pos_left hatlas hdB hdA).mpr hd
        linarith
      simp only [LineSDFProgram.uniformValues, makeValues, min_eq_left hle,
        fdiv_ne_zero _ (ne_of_gt hdA), Option.map_some', max_eq_left hmono]
    · have hmono : atlasWidth / (posA.width * properties.LineDasharray.fromScale * dashLineWidth
            * 256 * pixelRatio) / 2
          ≤ atlasWidth / (posB.width * properties.LineDasharray.toScale * dashLineWidth
            * 256 * pixelRatio) / 2 := by
        have hd : posB.width * properties.LineDasharray.toScale * dashLineWidth
              * 256 * pixelRatio
            ≤ posA.width * properties.LineDasharray.fromScale * dashLineWidth
              * 256 * pixelRatio := by
          have := mul_le_mul_of_nonneg_right hle (by positivity : (0 : F) ≤ 256 * pixelRatio)
          simpa [mul_assoc] using this
        have := (div_le_div_iff_of_pos_left hatlas hdA hdB).mpr hd
        linarith
      simp only [LineSDFProgram.uniformValues, makeValues, min_eq_right hle,
        fdiv_ne_zero _ (ne_of_gt hdB), Option.map_some', max_eq_right hmono]
  · simp only [LineSDFProgram.uniformValues, makeValues]
    rw [min_comm]

/-- Witness for C19: widths `10` and `20`, atlas width `256`, pixel ratio `1`: the gammas are
`1/20` and `1/40`, and `u_sdfgamma` is `1/20`. -/
theorem sdf_u_sdfgamma_max_witness :
    (0 : ℚ) < 256 ∧ (0 : ℚ) < 1 ∧
      0 < (samplePos 10).width * sampleProperties.LineDasharray.fromScale * 1 ∧
      0 < (samplePos 20).width * sampleProperties.LineDasharray.toScale * 1 ∧
      (LineSDFProgram.uniformValues sampleCMath sampleProperties 1 sampleTile
          (sampleState 0 0 600) (samplePos 10) (samplePos 20) 1 256).args.u_sdfgamma
        = some (max (1 / 20) (1 / 40)) := by
  have hA : (0 : ℚ) < (samplePos 10).width * sampleProperties.LineDasharray.fromScale * 1 := by
    norm_num [samplePos, sampleProperties]
  have hB : (0 : ℚ) < (samplePos 20).width * sampleProperties.LineDasharray.toScale * 1 := by
    norm_num [samplePos, sampleProperties]
  have h := (sdf_u_sdfgamma_max sampleCMath sampleProperties 1 sampleTile (sampleState 0 0 600)
    (samplePos 10) (samplePos 20) 1 256 (by norm_num) (by norm_num) hA hB).1
  refine ⟨by norm_num, by norm_num, hA, hB, h.trans ?_⟩
  norm_num [samplePos, sampleProperties]

end mbgl
